import Mathlib

/-!
# ArtLens — verification of the recognition, persistence and museum
cross-reference pipeline

Shallow embedding of the ArtLens repository (`app.py`, `ai_services.py`,
`models.py`, `museum_api_search.py`).  Python dictionaries coming back from
the AI model are embedded as records of optional fields, machine floats
(confidence scores) as rationals, database tables as lists of rows, and
fallible Python code (code that may raise) as `Except`-valued functions.
External HTTP calls are supplied by an explicit environment argument so
that every code path of the original program is a total Lean function of
its inputs.
-/

namespace ArtLens

/-- A Python exception value.  The identity of the exception never matters
to the control flow we embed (every handler is a bare `except`), so a
single constructor suffices. -/
inductive PyErr where
  | err
deriving Repr, DecidableEq

/-- A JSON field of a Python dict that the code reads with `dict.get`:
the key can be absent, present with value `None`, or present with a value.
`absent` and `null` behave differently under `get(key, default)`, which is
why both are distinguished. -/
inductive Py3 (α : Type) where
  | absent
  | null
  | val (a : α)
deriving Repr, DecidableEq

/-- `d.get(key, default)`: `absent ↦ default`, `null ↦ None`,
`val a ↦ a`.  The result is an `Option` because Python's `None` must be
propagated (it is not the same as the default). -/
def Py3.getPy {α : Type} (x : Py3 α) (default : α) : Option α :=
  match x with
  | .absent => some default
  | .null => none
  | .val a => some a

/-- `d.get(key)` with no default: `absent` and `null` both give `None`. -/
def Py3.getNone {α : Type} (x : Py3 α) : Option α :=
  match x with
  | .absent => none
  | .null => none
  | .val a => some a

/-- Python truthiness of an optional string: `None` and `""` are falsy. -/
def strTruthy (s : Option String) : Bool :=
  match s with
  | none => false
  | some t => t ≠ ""

/-- `x or default` for an optional string (`artwork_data.get(k) or v`). -/
def strOr (s : Option String) (d : String) : String :=
  match s with
  | none => d
  | some t => if t = "" then d else t

/-!
## ai_services.py — the Recognition Gate

`recognize_artwork_with_gpt4_vision` parses the model reply as JSON and
then validates it (lines 205–235).  A parsed reply is embedded as a record
of the fields the program ever reads; `none` means the key is missing from
the dict.  The reported confidence is a rational standing for the Python
float. -/

structure RecognitionResult where
  success : Bool
  title : Option String
  artist : Option String
  year : Option Int
  movement : Option String
  description : Option String
  confidence : Option Rat
  is_artwork : Option Bool
  message : Option String
  suggestions : List String
deriving Repr, DecidableEq

/-- The failure dict returned by ai_services.py lines 211–219 when a
claimed success lacks `title` or `artist`. -/
def missingFieldsFailure : RecognitionResult :=
  { success := false
    title := none, artist := none, year := none, movement := none
    description := none, confidence := none
    is_artwork := some false
    message := some "Could not identify this as a famous artwork."
    suggestions :=
      ["Try uploading a photo of a famous painting",
       "Make sure the image shows a clear view of museum artwork"] }

/-- The failure dict returned by ai_services.py lines 224–233 when the
reported confidence is below 0.7. -/
def lowConfidenceFailure (r : RecognitionResult) : RecognitionResult :=
  { success := false
    title := none, artist := none, year := none, movement := none
    description := none, confidence := none
    is_artwork := some (r.is_artwork.getD true)
    message := some "Low confidence in recognition. This may not be a famous artwork."
    suggestions :=
      ["Try a clearer photo",
       "Make sure it's a famous artwork from a major museum",
       "Ensure good lighting without glare"] }

/-- ai_services.py, `recognize_artwork_with_gpt4_vision` lines 205–235:
the validation applied to a successfully parsed model reply.  A claimed
success is demoted to failure when `title` or `artist` is missing from the
dict, or when `result.get('confidence', 0)` is below `0.7`; otherwise the
parsed reply is returned unchanged. -/
def recognize_artwork_gate (result : RecognitionResult) : RecognitionResult :=
  if result.success then
    if ¬ (result.title.isSome ∧ result.artist.isSome) then
      missingFieldsFailure
    else if result.confidence.getD 0 < (7 : Rat) / 10 then
      lowConfidenceFailure result
    else
      result
  else
    result

/-!
## models.py / app.py — the Artwork store and the recognize endpoint

`Artwork` rows carry the columns the pipeline reads; the table is a list
of rows in insertion order, so SQLAlchemy's `filter_by(...).first()` is
`List.find?`.  `nextId` stands for the autoincrement primary key. -/

structure Artwork where
  id : Nat
  title : String
  artist : String
  year : Option Int
  movement : Option String
  museum : Option String
  description : Option String
  image_url : Option String
  confidence : Option Rat
  image_hash : Option String
deriving Repr, DecidableEq

structure ArtworkDB where
  artworks : List Artwork
  nextId : Nat
deriving Repr, DecidableEq

/-- `Artwork.query.filter_by(image_hash=h).first()` (app.py line 104). -/
def findByHash (db : ArtworkDB) (h : String) : Option Artwork :=
  db.artworks.find? (fun a => a.image_hash == some h)

/-- `Artwork.query.filter_by(title=t).first()` (app.py line 124). -/
def findByTitle (db : ArtworkDB) (t : String) : Option Artwork :=
  db.artworks.find? (fun a => a.title == t)

/-- `Artwork.query.filter_by(title=t, artist=a).first()` (app.py
lines 371–374). -/
def findByTitleArtist (db : ArtworkDB) (t a : String) : Option Artwork :=
  db.artworks.find? (fun r => r.title == t && r.artist == a)

/-- Mutating the first row matching `p` in place, as SQLAlchemy does when
the object returned by `.first()` is modified and committed. -/
def updateFirst {α : Type} (p : α → Bool) (f : α → α) : List α → List α
  | [] => []
  | x :: xs => if p x then f x :: xs else x :: updateFirst p f xs

/-- The gamification columns of `User` touched by the recognize and
create endpoints (models.py). -/
structure UserState where
  xp : Nat
  level : Nat
  artworks_discovered : Nat
  quizzes_completed : Nat
deriving Repr, DecidableEq

/-- models.py `User.add_xp` lines 37–44. -/
def UserState.add_xp (u : UserState) (amount : Nat) : UserState :=
  let xp := u.xp + amount
  let new_level := xp / 100 + 1
  { u with xp := xp, level := if new_level > u.level then new_level else u.level }

/-- models.py `User.increment_artworks_discovered` lines 46–48. -/
def UserState.increment_artworks_discovered (u : UserState) : UserState :=
  { u with artworks_discovered := u.artworks_discovered + 1 }

/-- The JSON body and status code produced by the recognize endpoint. -/
structure RecognizeResponse where
  success : Bool
  artwork_id : Option Nat
  title : Option String
  artist : Option String
  year : Option Int
  movement : Option String
  image_url : Option String
  confidence : Option Rat
  cached : Bool
  message : Option String
  suggestions : List String
  is_artwork : Option Bool
  status : Nat
deriving Repr, DecidableEq

/-- Result of one call to the recognize endpoint: the HTTP response, the
database and user rows after commit, and whether `recognize_artwork` (the
AI model) was invoked on the way. -/
structure RecognizeOutcome where
  response : RecognizeResponse
  db : ArtworkDB
  user : UserState
  aiInvoked : Bool
deriving Repr, DecidableEq

/-- app.py lines 150–164: XP award and success response shared by the
created-row and updated-row branches. -/
def finishSuccess (db : ArtworkDB) (user : UserState) (artwork : Artwork) :
    Except PyErr RecognizeOutcome :=
  let user := (user.add_xp 10).increment_artworks_discovered
  let resp : RecognizeResponse :=
    { success := true, artwork_id := some artwork.id,
      title := some artwork.title, artist := some artwork.artist,
      year := artwork.year, movement := artwork.movement,
      image_url := artwork.image_url, confidence := artwork.confidence,
      cached := false, message := none, suggestions := [],
      is_artwork := none, status := 200 }
  .ok { response := resp, db := db, user := user, aiInvoked := true }

/-- app.py lines 140–147: the in-place mutation of an existing row found
by title — overwrite `confidence` only when the new value is strictly
greater than `artwork.confidence or 0.0`, and backfill a missing
`image_hash`.  `new_confidence` is `result.get('confidence', 0.0)`. -/
def applyRecognitionUpdate (image_hash : Option String) (new_confidence : Rat)
    (a : Artwork) : Artwork :=
  let a1 := if new_confidence > a.confidence.getD 0
            then { a with confidence := some new_confidence } else a
  if a1.image_hash.isNone ∧ image_hash.isSome
  then { a1 with image_hash := image_hash } else a1

/-- app.py lines 140–148: the store after the commit of the in-place
update of the first row with the recognized title. -/
def updatedDB (db : ArtworkDB) (t : String) (image_hash : Option String)
    (new_confidence : Rat) : ArtworkDB :=
  { db with
    artworks := updateFirst (fun a => a.title == t)
      (applyRecognitionUpdate image_hash new_confidence) db.artworks }

/-- app.py lines 128–137: the fresh `Artwork` row built from a validated
recognition, carrying the upload's hash and
`result.get('confidence', 0.0)`. -/
def newArtworkRow (db : ArtworkDB) (image_hash : Option String)
    (unique_filename : String) (ai : RecognitionResult) (t artistName : String) :
    Artwork :=
  { id := db.nextId, title := t, artist := artistName,
    year := ai.year, movement := ai.movement, museum := none,
    description := ai.description,
    image_url := some ("/static/uploads/" ++ unique_filename),
    confidence := some (ai.confidence.getD 0),
    image_hash := image_hash }

/-- app.py `recognize` lines 119–172: the path taken when the content
hash misses the store.  `ai` is the reply of `recognize_artwork`;
`result['title']` / `result['artist']` on a dict lacking the key is a
`KeyError`, hence the `Except`. -/
def recognizeWithAI (db : ArtworkDB) (user : UserState)
    (image_hash : Option String) (unique_filename : String)
    (ai : RecognitionResult) : Except PyErr RecognizeOutcome :=
  if ai.success then
    match ai.title with
    | none => .error .err
    | some t =>
      match findByTitle db t with
      | none =>
        match ai.artist with
        | none => .error .err
        | some artistName =>
          let artwork := newArtworkRow db image_hash unique_filename ai t artistName
          finishSuccess { artworks := db.artworks ++ [artwork], nextId := db.nextId + 1 }
            user artwork
      | some artwork =>
        let upd := applyRecognitionUpdate image_hash (ai.confidence.getD 0)
        finishSuccess (updatedDB db t image_hash (ai.confidence.getD 0))
          user (upd artwork)
  else
    let resp : RecognizeResponse :=
      { success := false, artwork_id := none, title := none,
        artist := none, year := none, movement := none, image_url := none,
        confidence := none, cached := false,
        message := some (ai.message.getD "Could not recognize this artwork"),
        suggestions := ai.suggestions,
        is_artwork := some (ai.is_artwork.getD false), status := 404 }
    .ok { response := resp, db := db, user := user, aiInvoked := true }

/-- app.py lines 105–117: the response served on a content-hash cache
hit, straight from the stored row, with `cached: True` and no model
call.  Database and user are untouched. -/
def cacheHitOutcome (db : ArtworkDB) (user : UserState) (a : Artwork) :
    RecognizeOutcome :=
  let resp : RecognizeResponse :=
    { success := true, artwork_id := some a.id,
      title := some a.title, artist := some a.artist,
      year := a.year, movement := a.movement, image_url := a.image_url,
      confidence := a.confidence, cached := true,
      message := none, suggestions := [], is_artwork := none, status := 200 }
  { response := resp, db := db, user := user, aiInvoked := false }

/-- app.py `recognize` lines 99–172: the endpoint body after the file is
saved.  `image_hash` is the SHA-256 of the upload (`none` when hashing
failed); a hash hit is answered from the store without invoking the
model. -/
def recognize (db : ArtworkDB) (user : UserState) (image_hash : Option String)
    (unique_filename : String) (ai : RecognitionResult) :
    Except PyErr RecognizeOutcome :=
  match image_hash with
  | some h =>
    match findByHash db h with
    | some cached_artwork => .ok (cacheHitOutcome db user cached_artwork)
    | none => recognizeWithAI db user image_hash unique_filename ai
  | none => recognizeWithAI db user image_hash unique_filename ai

/-- Response and state of one call to the create endpoint. -/
structure CreateOutcome where
  success : Bool
  artwork_id : Option Nat
  already_exists : Option Bool
  status : Nat
  db : ArtworkDB
  user : UserState
deriving Repr, DecidableEq

/-- app.py lines 389–397: the row inserted by the create endpoint — no
content hash, fixed confidence 0.9 for museum API results. -/
def createdArtworkRow (db : ArtworkDB) (t a : String) (year : Option Int)
    (image_url : Option String) (description movement : String) : Artwork :=
  { id := db.nextId, title := t, artist := a, year := year,
    movement := some movement, museum := none,
    description := some description, image_url := image_url,
    confidence := some ((9 : Rat) / 10), image_hash := none }

/-- app.py `create_artwork` lines 357–420.  `title` / `artist` are
`data.get(...)`, so they may be `None`; `filter_by` with a `None` value
matches no row of these non-nullable columns, and the subsequent insert
violates `nullable=False`, is rolled back, and answers 500. -/
def create_artwork (db : ArtworkDB) (user : UserState)
    (title artist : Option String) (year : Option Int)
    (image_url : Option String) (description : String) (movement : String) :
    CreateOutcome :=
  match title, artist with
  | some t, some a =>
    match findByTitleArtist db t a with
    | some existing =>
      let user := (user.add_xp 10).increment_artworks_discovered
      { success := true, artwork_id := some existing.id,
        already_exists := some true, status := 200, db := db, user := user }
    | none =>
      let artwork := createdArtworkRow db t a year image_url description movement
      let user := (user.add_xp 10).increment_artworks_discovered
      { success := true, artwork_id := some artwork.id,
        already_exists := some false, status := 200,
        db := { artworks := db.artworks ++ [artwork], nextId := db.nextId + 1 },
        user := user }
  | _, _ =>
    { success := false, artwork_id := none, already_exists := none,
      status := 500, db := db, user := user }

/-!
## museum_api_search.py — string helpers

Python's `needle in hay`, `str.title()`, `str.split()[-1]` and the year
regex `\b(1[4-9]\d{2}|20\d{2})\b` re-implemented over `List Char`. -/

/-- `n.isPrefixOf m || ...` scan: Python's substring test `n in h`. -/
def listContainsSub (n : List Char) : List Char → Bool
  | [] => n.isEmpty
  | c :: cs => n.isPrefixOf (c :: cs) || listContainsSub n cs

/-- Python `needle in hay` on strings. -/
def strIn (needle hay : String) : Bool :=
  listContainsSub needle.toList hay.toList

/-- `str.lower()` (ASCII case mapping, character by character). -/
def pyLower (s : String) : String := ⟨s.toList.map Char.toLower⟩

/-- `str.title()` restricted to the lower-case inputs it is applied to:
an alphabetic character is upper-cased exactly when it follows a
non-alphabetic character (or starts the string). -/
def titleCaseGo : Bool → List Char → List Char
  | _, [] => []
  | afterSep, c :: cs =>
    if c.isAlpha then (if afterSep then c.toUpper else c) :: titleCaseGo false cs
    else c :: titleCaseGo true cs

def titleCase (s : String) : String := ⟨titleCaseGo true s.toList⟩

/-- `s.split()[-1]`: last whitespace-separated word (`""` when there is
none; the call sites only reach this on stripped non-empty strings). -/
def lastWord (s : String) : String :=
  (((s.split (fun c => c.isWhitespace)).filter (fun w => w ≠ "")).getLast?).getD ""

/-- A regex word character (`\w`), for the `\b` boundaries. -/
def isWordChar (c : Char) : Bool := c.isAlphanum || c == '_'

/-- The character before the match position is compatible with `\b`. -/
def boundaryBefore : Option Char → Bool
  | none => true
  | some c => ! isWordChar c

def digitVal (c : Char) : Nat := c.toNat - '0'.toNat

/-- Try to match `\b(1[4-9]\d{2}|20\d{2})\b` at the head of the
character list, `prev` being the character just before it. -/
def yearPatternAt (prev : Option Char) : List Char → Option Nat
  | c1 :: c2 :: c3 :: c4 :: rest =>
    if boundaryBefore prev = true ∧
       ((c1 = '1' ∧ '4' ≤ c2 ∧ c2 ≤ '9') ∨ (c1 = '2' ∧ c2 = '0')) ∧
       c3.isDigit = true ∧ c4.isDigit = true ∧
       rest.head?.all (fun r => ! isWordChar r) = true then
      some (1000 * digitVal c1 + 100 * digitVal c2 + 10 * digitVal c3 + digitVal c4)
    else none
  | _ => none

/-- `re.search`: leftmost match of the year pattern. -/
def findYearFrom : Option Char → List Char → Option Nat
  | _, [] => none
  | prev, c :: cs =>
    match yearPatternAt prev (c :: cs) with
    | some y => some y
    | none => findYearFrom (some c) cs

/-- Python `str(x)` on an optional string (`None ↦ "None"`). -/
def pyStr : Option String → String
  | none => "None"
  | some s => s

/-- museum_api_search.py lines 35–42: extract a year 1400–2099 from the
object-date string, `None` when the pattern does not occur. -/
def extractYear (year_str : Option String) : Option Nat :=
  findYearFrom none (pyStr year_str).toList

/-!
## museum_api_search.py — Met objects and movement inference -/

/-- An entry of a Met object's `tags` list: the code accepts both plain
strings and dicts carrying a `term` key. -/
inductive MetTag where
  | strTag (s : String)
  | dictTag (term : Py3 String)
deriving Repr, DecidableEq

/-- The fields of a Met object-detail JSON record that the code reads.
`Option String` fields collapse absent and `null` because every read of
them treats the two alike; the `Py3` fields are read with `get(k, d)`
where the difference is observable. -/
structure MetObject where
  title : Py3 String
  artistDisplayName : Py3 String
  objectDate : Py3 String
  primaryImage : Option String
  culture : Py3 String
  tags : Py3 (List MetTag)
  classification : Option String
  objectURL : Option String
  department : Option String
  medium : Option String
  dimensions : Option String
deriving Repr, DecidableEq

def emptyMetObject : MetObject :=
  { title := .absent, artistDisplayName := .absent, objectDate := .absent,
    primaryImage := none, culture := .absent, tags := .absent,
    classification := none, objectURL := none, department := none,
    medium := none, dimensions := none }

/-- museum_api_search.py lines 25–29. -/
def movements : List String :=
  ["renaissance", "baroque", "rococo", "neoclassicism", "romanticism",
   "realism", "impressionism", "post-impressionism", "expressionism",
   "cubism", "surrealism", "abstract", "modernism", "contemporary"]

/-- museum_api_search.py line 23: `tag.get('term', '').lower()` for
dicts (`.lower()` on a `None` term raises), `str(tag).lower()`
otherwise. -/
def tagNameOf (tag : MetTag) : Except PyErr String :=
  match tag with
  | .strTag s => .ok (pyLower s)
  | .dictTag term =>
    match term.getPy "" with
    | none => .error .err
    | some t => .ok (pyLower t)

/-- museum_api_search.py lines 22–32: first tag whose name contains a
movement keyword, searched in keyword-list order per tag. -/
def tagMovementLoop : List MetTag → Except PyErr (Option String)
  | [] => .ok none
  | tag :: rest =>
    match tagNameOf tag with
    | .error e => .error e
    | .ok tag_name =>
      match movements.find? (fun m => strIn m tag_name) with
      | some m => .ok (some (titleCase m))
      | none => tagMovementLoop rest

/-- museum_api_search.py line 60. -/
def impressionists : List String :=
  ["monet", "renoir", "degas", "pissarro", "sisley", "morisot", "cassatt"]

/-- museum_api_search.py line 63. -/
def post_impressionists : List String :=
  ["van gogh", "cézanne", "gauguin", "seurat", "toulouse-lautrec"]

/-- museum_api_search.py lines 44–76: the year-bucketed movement table.
The artist override is consulted only in the 1880–1904 bucket, where
`artist_name.lower()` raises if the artist is `None`. -/
def yearMovement (year : Nat) (artist_name : Option String) :
    Except PyErr String :=
  if year < 1400 then .ok "Medieval"
  else if year < 1600 then .ok "Renaissance"
  else if year < 1750 then .ok "Baroque"
  else if year < 1800 then .ok "Neoclassicism"
  else if year < 1850 then .ok "Romanticism"
  else if year < 1880 then .ok "Realism"
  else if year < 1905 then
    match artist_name with
    | none => .error .err
    | some a =>
      if impressionists.any (fun n => strIn n (pyLower a)) then
        .ok "Impressionism"
      else if post_impressionists.any (fun n => strIn n (pyLower a)) then
        .ok "Post-Impressionism"
      else .ok "Late 19th Century"
  else if year < 1920 then .ok "Early Modernism"
  else if year < 1945 then .ok "Modernism"
  else if year < 1970 then .ok "Post-War Art"
  else if year < 2000 then .ok "Contemporary"
  else .ok "21st Century"

/-- museum_api_search.py `infer_art_movement` lines 10–79: non-Western
culture tag, else tag keywords, else year bucketing, else the
classification field or `"Unknown"`.  Iterating a `null` tags value or
lowering a `None` term / artist raises. -/
def infer_art_movement (artwork_data : MetObject) (artist_name : Option String)
    (year_str : Option String) : Except PyErr String :=
  let cultureHit :=
    match artwork_data.culture.getPy "" with
    | some c =>
      if c ≠ "" ∧ c ∉ ["American", "European", "French", "Italian"]
      then some c else none
    | none => none
  match cultureHit with
  | some c => .ok c
  | none =>
    match artwork_data.tags.getPy [] with
    | none => .error .err
    | some tags =>
      match tagMovementLoop tags with
      | .error e => .error e
      | .ok (some m) => .ok m
      | .ok none =>
        match extractYear year_str with
        | some year => yearMovement year artist_name
        | none => .ok (strOr artwork_data.classification "Unknown")

/-!
## museum_api_search.py — the Met search and its match scoring -/

/-- The external Met collection API, as the code sees it: the plain
search endpoint and the `artistOrCulture=true` search endpoint keyed by
query string, and the object-detail endpoint keyed by object id.
`.error` stands for any network / non-2xx / JSON failure of the call. -/
structure MetEnv where
  search : String → Except PyErr (Py3 (List Nat))
  searchByArtist : String → Except PyErr (Py3 (List Nat))
  objects : Nat → Except PyErr MetObject

/-- The dict returned by `search_met_artwork` on success
(museum_api_search.py lines 184–190). -/
structure MetSearchResult where
  image_url : String
  met_url : Option String
  department : Option String
  medium : Option String
  dimensions : Option String
deriving Repr, DecidableEq

def mkMetSearchResult (d : MetObject) : MetSearchResult :=
  { image_url := (d.primaryImage).getD "", met_url := d.objectURL,
    department := d.department, medium := d.medium,
    dimensions := d.dimensions }

/-- museum_api_search.py lines 122–123: `(get(k) or '').lower().strip()`. -/
def normStr (x : Py3 String) : String := (pyLower ((x.getNone).getD "")).trim

/-- museum_api_search.py lines 134–145: the title component of the match
score.  The float test `len(st) / max(len(ot), 1) > 0.5` is the exact
integer comparison `2 * len(st) > max(len(ot), 1)` (0.5 is a power of
two, so float rounding cannot cross it at these magnitudes). -/
def scoreTitle (search_title obj_title : String) : Nat :=
  if obj_title == search_title then 10
  else if strIn search_title obj_title then
    if 2 * search_title.length > max obj_title.length 1 then 5 else 1
  else if strIn obj_title search_title then 3
  else 0

/-- museum_api_search.py lines 147–158: the artist component, scored
only when both names are non-empty. -/
def scoreArtist (search_artist obj_artist : String) : Nat :=
  if obj_artist ≠ "" ∧ search_artist ≠ "" then
    let obj_last_name := lastWord obj_artist
    let search_last_name := lastWord search_artist
    if obj_artist == search_artist then 10
    else if strIn search_artist obj_artist || strIn obj_artist search_artist then 5
    else if obj_last_name ≠ "" ∧ search_last_name ≠ "" ∧
            obj_last_name = search_last_name then 3
    else 0
  else 0

/-- museum_api_search.py lines 131–158: total score of one candidate. -/
def scoreCandidate (search_title search_artist obj_title obj_artist : String) :
    Nat :=
  scoreTitle search_title obj_title + scoreArtist search_artist obj_artist

/-- museum_api_search.py lines 109–169: the candidate loop — skip failed
fetches and image-less objects, keep the best score so far, replacing
only on a strictly greater score of at least 8. -/
def searchLoop (env : MetEnv) (st sa : String) :
    List Nat → Option MetObject → Nat → Option MetObject
  | [], best, _ => best
  | oid :: rest, best, best_score =>
    match env.objects oid with
    | .error _ => searchLoop env st sa rest best best_score
    | .ok data =>
      if strTruthy data.primaryImage = false then
        searchLoop env st sa rest best best_score
      else
        let score := scoreCandidate st sa (normStr data.title)
          (normStr data.artistDisplayName)
        if 8 ≤ score ∧ best_score < score then
          searchLoop env st sa rest (some data) score
        else searchLoop env st sa rest best best_score

/-- museum_api_search.py `search_met_artwork` lines 82–200 (the
`lru_cache` is transparent to the result). -/
def search_met_artwork (env : MetEnv) (artwork_title artist_name : String) :
    Option MetSearchResult :=
  match env.search (artwork_title ++ " " ++ artist_name) with
  | .error _ => none
  | .ok ids3 =>
    match ids3.getNone with
    | none => none
    | some ids =>
      if ids.length = 0 then none
      else
        match searchLoop env (pyLower artwork_title).trim
            (pyLower artist_name).trim (ids.take 10) none 0 with
        | none => none
        | some best =>
          match best.primaryImage with
          | none => none
          | some img => if img = "" then none else some (mkMetSearchResult best)

/-!
### Specification-side description of the selection

The claim describes the loop as: among fetched candidates that have an
image, those scoring at least 8 are accepted, and the first accepted
candidate attaining the maximal score wins.  The following definitions
state that selection directly; the refinement theorem proves the loop
equal to it. -/

/-- The fetched, imaged candidates in first-seen order with their
scores. -/
def scoredCandidates (env : MetEnv) (st sa : String) (ids : List Nat) :
    List (MetObject × Nat) :=
  ids.filterMap (fun oid =>
    match env.objects oid with
    | .error _ => none
    | .ok data =>
      if strTruthy data.primaryImage then
        some (data, scoreCandidate st sa (normStr data.title)
          (normStr data.artistDisplayName))
      else none)

/-- The pure selection step of the candidate loop on pre-scored
candidates. -/
def selectLoopPure : List (MetObject × Nat) → Option MetObject → Nat →
    Option MetObject
  | [], best, _ => best
  | (d, s) :: rest, best, bs =>
    if 8 ≤ s ∧ bs < s then selectLoopPure rest (some d) s
    else selectLoopPure rest best bs

/-- Candidates accepted over a current best score: score at least 8 and
strictly above `bs`. -/
def acceptedAbove (bs : Nat) (l : List (MetObject × Nat)) :
    List (MetObject × Nat) :=
  l.filter (fun p => decide (8 ≤ p.2) && decide (bs < p.2))

/-- Maximum score of a candidate list (0 when empty). -/
def maxScoreOf (l : List (MetObject × Nat)) : Nat :=
  (l.map (fun p => p.2)).foldr max 0

/-- The claim's selection rule: among the accepted candidates (image
present, score at least 8) the first one attaining the maximal score
wins; no accepted candidate, no result. -/
def specBestMatch (cands : List (MetObject × Nat)) : Option MetObject :=
  if acceptedAbove 0 cands = [] then none
  else
    ((acceptedAbove 0 cands).find?
      (fun p => p.2 == maxScoreOf (acceptedAbove 0 cands))).map Prod.fst

/-!
## museum_api_search.py — related-artwork retrieval

`find_related_artworks_by_artist` / `find_related_artworks_by_style`
wrap their whole body in `try/except` returning `[]`, and each candidate
fetch in an inner `try/except` that skips the candidate.  The bodies are
embedded as `Except` computations whose errors model uncaught
exceptions; the outer handler turns any body error into `.ok []`. -/

/-- One entry of a related-artworks list.  Museum entries always carry a
non-empty image URL; fields a given producer does not set are `none`
(`title`/`artist`/`year` are `none` when the dict holds Python `None`). -/
structure RelatedArtwork where
  title : Option String
  artist : Option String
  year : Option String
  image_url : String
  met_url : Option String
  department : Option String
  medium : Option String
  movement : Option String
  similarity : Option String
deriving Repr, DecidableEq

/-- museum_api_search.py lines 274–307: fetch and convert one candidate
for the by-artist search.  `ok none` is a skipped candidate (no image,
or same title as the viewed artwork); a raise (fetch failure, movement
inference on bad data, `.lower()` on a `None` title) is `.error`. -/
def buildArtistEntry (env : MetEnv) (artist_name : String)
    (exclude_title : Option String) (oid : Nat) :
    Except PyErr (Option RelatedArtwork) :=
  match env.objects oid with
  | .error e => .error e
  | .ok data =>
    if strTruthy data.primaryImage = false then .ok none
    else
      let title? := data.title.getPy "Untitled"
      let artist? := data.artistDisplayName.getPy artist_name
      let year? := data.objectDate.getPy "Unknown"
      match infer_art_movement data artist? year? with
      | .error e => .error e
      | .ok movement =>
        let excludedE : Except PyErr Bool :=
          match exclude_title with
          | some ex =>
            if ex ≠ "" then
              match title? with
              | none => .error .err
              | some ttl => .ok (pyLower ttl == pyLower ex)
            else .ok false
          | none => .ok false
        match excludedE with
        | .error e => .error e
        | .ok excluded =>
          if excluded then .ok none
          else
            let entry : RelatedArtwork :=
              { title := title?, artist := artist?, year := year?,
                image_url := data.primaryImage.getD "",
                met_url := data.objectURL, department := data.department,
                medium := data.medium, movement := some movement,
                similarity := none }
            .ok (some entry)

/-- museum_api_search.py lines 352–377: fetch and convert one candidate
for the by-style search. -/
def buildStyleEntry (env : MetEnv) (oid : Nat) :
    Except PyErr (Option RelatedArtwork) :=
  match env.objects oid with
  | .error e => .error e
  | .ok data =>
    if strTruthy data.primaryImage = false then .ok none
    else
      let title? := data.title.getPy "Untitled"
      let artist? := data.artistDisplayName.getPy "Unknown Artist"
      let year? := data.objectDate.getPy "Unknown"
      match infer_art_movement data artist? year? with
      | .error e => .error e
      | .ok movement =>
        let entry : RelatedArtwork :=
          { title := title?, artist := artist?, year := year?,
            image_url := data.primaryImage.getD "",
            met_url := none, department := none, medium := none,
            movement := some movement, similarity := none }
        .ok (some entry)

/-- The candidate loop shared by the two retrievals: stop at `limit`
accepted entries, skip failed or filtered candidates. -/
def relatedLoop (step : Nat → Except PyErr (Option RelatedArtwork))
    (limit : Nat) : List Nat → List RelatedArtwork → List RelatedArtwork
  | [], acc => acc
  | oid :: rest, acc =>
    if limit ≤ acc.length then acc
    else
      match step oid with
      | .error _ => relatedLoop step limit rest acc
      | .ok none => relatedLoop step limit rest acc
      | .ok (some r) => relatedLoop step limit rest (acc ++ [r])

/-- The `try` body of `find_related_artworks_by_artist`
(museum_api_search.py lines 251–316). -/
def bodyByArtist (env : MetEnv) (artist_name : String)
    (exclude_title : Option String) (limit : Nat) :
    Except PyErr (List RelatedArtwork) :=
  match env.searchByArtist artist_name with
  | .error e => .error e
  | .ok ids3 =>
    match ids3.getNone with
    | none => .ok []
    | some ids =>
      if ids.length = 0 then .ok []
      else .ok (relatedLoop (buildArtistEntry env artist_name exclude_title)
        limit (ids.take 20) [])

/-- museum_api_search.py `find_related_artworks_by_artist` lines
245–320: the outer handler turns any uncaught body error into `[]`. -/
def find_related_artworks_by_artist (env : MetEnv) (artist_name : String)
    (exclude_title : Option String) (limit : Nat) :
    Except PyErr (List RelatedArtwork) :=
  match bodyByArtist env artist_name exclude_title limit with
  | .ok l => .ok l
  | .error _ => .ok []

/-- The `try` body of `find_related_artworks_by_style`
(museum_api_search.py lines 329–385). -/
def bodyByStyle (env : MetEnv) (style_or_movement : String) (limit : Nat) :
    Except PyErr (List RelatedArtwork) :=
  match env.search style_or_movement with
  | .error e => .error e
  | .ok ids3 =>
    match ids3.getNone with
    | none => .ok []
    | some ids =>
      if ids.length = 0 then .ok []
      else .ok (relatedLoop (buildStyleEntry env) limit (ids.take 20) [])

/-- museum_api_search.py `find_related_artworks_by_style` lines 323–389. -/
def find_related_artworks_by_style (env : MetEnv) (style_or_movement : String)
    (limit : Nat) : Except PyErr (List RelatedArtwork) :=
  match bodyByStyle env style_or_movement limit with
  | .ok l => .ok l
  | .error _ => .ok []

/-!
## museum_api_search.py / app.py — suggestion image lookup and the
related-content assembler -/

def hexDigit (n : Nat) : Char :=
  if n < 10 then Char.ofNat ('0'.toNat + n)
  else Char.ofNat ('A'.toNat + (n - 10))

/-- `urllib.parse.quote_plus`: keep ASCII alphanumerics and `_.-~`,
turn spaces into `+`, percent-encode every other byte of the UTF-8
encoding. -/
def quotePlus (s : String) : String :=
  ⟨s.toList.flatMap (fun c =>
    if (c.isAlphanum ∧ c.toNat < 128) ∨ c = '_' ∨ c = '.' ∨ c = '-' ∨ c = '~'
    then [c]
    else if c = ' ' then ['+']
    else (String.utf8EncodeChar c).flatMap (fun b =>
      ['%', hexDigit (b.toNat / 16), hexDigit (b.toNat % 16)]))⟩

/-- `search_met_artwork` as invoked on a suggestion's optional title and
artist: a `None` title or artist makes `.lower()` raise inside the
per-candidate `try`, so every candidate is skipped and the caught search
returns `None` (ai path of museum_api_search.py lines 203–220). -/
def search_met_artwork_opt (env : MetEnv) (title artist : Option String) :
    Option MetSearchResult :=
  match title, artist with
  | some t, some a => search_met_artwork env t a
  | _, _ => none

/-- museum_api_search.py `get_artwork_image_url` lines 223–242: own
database image, else Met search, else the placeholder URL — whose
construction `quote_plus(artwork_title)` raises a `TypeError` when the
title is `None`. -/
def get_artwork_image_url (env : MetEnv) (artwork_title artist_name : Option String)
    (db_artwork : Option Artwork) : Except PyErr String :=
  let fromMet : Except PyErr String :=
    match search_met_artwork_opt env artwork_title artist_name with
    | some r => .ok r.image_url
    | none =>
      match artwork_title with
      | none => .error .err
      | some t =>
        .ok ("https://via.placeholder.com/400x300/7c3aed/ffffff?text="
          ++ quotePlus t)
  match db_artwork with
  | some a => if strTruthy a.image_url then .ok (a.image_url.getD "") else fromMet
  | none => fromMet

/-- One entry of the AI bundle's `similar_artworks` list. -/
structure AISuggestion where
  title : Option String
  artist : Option String
  year : Option String
  similarity : Option String
deriving Repr, DecidableEq

/-- The bundle produced by `get_related_artworks_and_context`
(ai_services.py lines 555–675), abstracted as data: the assembler only
reads its fields. -/
structure AIContextBundle where
  similar_artworks : List AISuggestion
  historical_context : Option String
  contemporary_artists : List String
deriving Repr, DecidableEq

/-- app.py lines 287–299: the suggestion dict with its `image_url` key
set, as appended to the related list. -/
def mkSuggestionEntry (sug : AISuggestion) (image_url : String) :
    RelatedArtwork :=
  { title := sug.title, artist := sug.artist, year := sug.year,
    image_url := image_url, met_url := none, department := none,
    medium := none, movement := none, similarity := sug.similarity }

/-- app.py line 290: `Artwork.query.filter_by(title=title).first()` for
a suggestion; a `None` title matches no row of the non-nullable
column. -/
def suggestionDbLookup (db : ArtworkDB) (sug : AISuggestion) : Option Artwork :=
  match sug.title with
  | some t => findByTitle db t
  | none => none

/-- app.py lines 285–299: enrich AI suggestions with an image lookup and
keep only those whose resolved URL is non-empty and not a placeholder,
stopping at 3 entries overall. -/
def enrichLoop (env : MetEnv) (db : ArtworkDB) :
    List AISuggestion → List RelatedArtwork →
    Except PyErr (List RelatedArtwork)
  | [], acc => .ok acc
  | sug :: rest, acc =>
    match get_artwork_image_url env sug.title sug.artist
      (suggestionDbLookup db sug) with
    | .error e => .error e
    | .ok image_url =>
      if image_url ≠ "" ∧ strIn "placeholder" image_url = false then
        if 3 ≤ (acc ++ [mkSuggestionEntry sug image_url]).length then
          .ok (acc ++ [mkSuggestionEntry sug image_url])
        else enrichLoop env db rest (acc ++ [mkSuggestionEntry sug image_url])
      else enrichLoop env db rest acc

/-- The net effect of `generate_similarity_explanations` (and of the
default-explanation fallbacks in app.py lines 306–311): every entry's
`similarity` field is written, nothing else changes; `expl` abstracts
the AI-or-default sentence chosen for an entry. -/
def generate_similarity_explanations (expl : RelatedArtwork → String)
    (l : List RelatedArtwork) : List RelatedArtwork :=
  l.map (fun art => { art with similarity := some (expl art) })

/-- The JSON body assembled by the related endpoint. -/
structure RelatedContentResult where
  similar_artworks : List RelatedArtwork
  historical_context : Option String
  contemporary_artists : List String
deriving Repr, DecidableEq

/-- app.py `get_related_content` lines 245–333, after a cache miss:
same-artist artworks first (limit 3), same-movement artworks only while
short of 3, then AI suggestions with a non-placeholder image; then
similarity explanations and the context bundle. -/
def get_related_content (env : MetEnv) (db : ArtworkDB) (artwork : Artwork)
    (aiBundle : AIContextBundle) (expl : RelatedArtwork → String) :
    Except PyErr RelatedContentResult :=
  match (if artwork.artist ≠ "" then
      find_related_artworks_by_artist env artwork.artist (some artwork.title) 3
    else .ok []) with
  | .error e => .error e
  | .ok related1 =>
    match (if related1.length < 3 ∧ strTruthy artwork.movement = true ∧
        artwork.movement ≠ some "Unknown" then
        find_related_artworks_by_style env (artwork.movement.getD "")
          (3 - related1.length)
      else .ok []) with
    | .error e => .error e
    | .ok related2 =>
      match (if (related1 ++ related2).length < 3 then
          enrichLoop env db (aiBundle.similar_artworks.take 3)
            (related1 ++ related2)
        else .ok (related1 ++ related2)) with
      | .error e => .error e
      | .ok related =>
        let final :=
          if related.isEmpty then related
          else generate_similarity_explanations expl related
        .ok { similar_artworks := final,
              historical_context := aiBundle.historical_context,
              contemporary_artists := aiBundle.contemporary_artists }

/-!
## models.py / app.py — quiz attempts

`QuizAttempt` rows (models.py lines 165–180); `questions` holds the
serialized (JSON-dumped) question list. -/

structure QuizAttempt where
  id : Nat
  user_id : Nat
  artwork_id : Nat
  questions : String
  score : Option Nat
  completed : Bool
  started_at : Nat
deriving Repr, DecidableEq

structure QuizDB where
  attempts : List QuizAttempt
  nextId : Nat
deriving Repr, DecidableEq

/-- All attempts of a (user, artwork) pair, in insertion order. -/
def attemptsFor (db : QuizDB) (uid aid : Nat) : List QuizAttempt :=
  db.attempts.filter (fun q => q.user_id == uid && q.artwork_id == aid)

/-- app.py lines 430–433:
`filter_by(user_id, artwork_id).order_by(started_at.desc()).first()` —
an attempt of the pair with the greatest `started_at` (the first stored
one among equal timestamps, the tie order being backend-specific). -/
def latestAttempt (db : QuizDB) (uid aid : Nat) : Option QuizAttempt :=
  let l := attemptsFor db uid aid
  let m := (l.map (fun q => q.started_at)).foldr max 0
  l.find? (fun q => q.started_at == m)

/-- What the quiz endpoint hands back: the attempt id, the serialized
questions it deserializes into the response, the store after commit, and
whether `generate_quiz` was invoked. -/
structure QuizModeOutcome where
  quiz_id : Nat
  questions : String
  db : QuizDB
  generated : Bool
deriving Repr, DecidableEq

/-- app.py lines 436–444: the first-ever attempt of the pair, holding the
freshly generated serialized questions `gen`. -/
def freshAttemptRow (db : QuizDB) (uid aid : Nat) (gen : String) (now : Nat) :
    QuizAttempt :=
  { id := db.nextId, user_id := uid, artwork_id := aid,
    questions := gen, score := none, completed := false, started_at := now }

/-- app.py lines 445–455: the retake attempt created when the previous
attempt was completed — it reuses that attempt's questions verbatim. -/
def retakeAttemptRow (db : QuizDB) (uid aid : Nat) (qa : QuizAttempt)
    (now : Nat) : QuizAttempt :=
  { id := db.nextId, user_id := uid, artwork_id := aid,
    questions := qa.questions, score := none, completed := false,
    started_at := now }

/-- app.py `quiz_mode` lines 422–460.  `gen` is the serialized output of
`generate_quiz`, consumed only when the pair has no attempt; a completed
previous attempt is retaken with the same questions; an incomplete one is
simply served again. -/
def quiz_mode (db : QuizDB) (uid aid : Nat) (gen : String) (now : Nat) :
    QuizModeOutcome :=
  match latestAttempt db uid aid with
  | none =>
    let attempt := freshAttemptRow db uid aid gen now
    { quiz_id := attempt.id, questions := attempt.questions,
      db := { attempts := db.attempts ++ [attempt], nextId := db.nextId + 1 },
      generated := true }
  | some quiz_attempt =>
    if quiz_attempt.completed then
      let new_attempt := retakeAttemptRow db uid aid quiz_attempt now
      { quiz_id := new_attempt.id, questions := new_attempt.questions,
        db := { attempts := db.attempts ++ [new_attempt], nextId := db.nextId + 1 },
        generated := false }
    else
      { quiz_id := quiz_attempt.id, questions := quiz_attempt.questions,
        db := db, generated := false }

/-! ### Concrete sample store contents used by the witnesses -/

def starryNight : Artwork :=
  { id := 1, title := "The Starry Night", artist := "Vincent van Gogh",
    year := some 1889, movement := some "Post-Impressionism", museum := none,
    description := none, image_url := some "/static/uploads/a.jpg",
    confidence := some ((95 : Rat) / 100), image_hash := some "abc123" }

def sampleDB : ArtworkDB := { artworks := [starryNight], nextId := 2 }

def emptyDB : ArtworkDB := { artworks := [], nextId := 1 }

def sampleUser : UserState :=
  { xp := 30, level := 1, artworks_discovered := 3, quizzes_completed := 0 }

def monaLisaAI : RecognitionResult :=
  { success := true, title := some "Mona Lisa",
    artist := some "Leonardo da Vinci", year := some 1503,
    movement := some "Renaissance", description := none,
    confidence := some ((9 : Rat) / 10), is_artwork := some true,
    message := none, suggestions := [] }

def starryNightAI : RecognitionResult :=
  { success := true, title := some "The Starry Night",
    artist := some "Vincent van Gogh", year := some 1889,
    movement := some "Post-Impressionism", description := none,
    confidence := some ((99 : Rat) / 100), is_artwork := some true,
    message := none, suggestions := [] }

def metObjA : MetObject :=
  { emptyMetObject with
    title := .val "Wheat Field with Cypresses",
    artistDisplayName := .val "Somebody Else",
    primaryImage := some "https://images.metmuseum.org/a.jpg" }

def metObjB : MetObject :=
  { emptyMetObject with
    title := .val "Sunflowers",
    artistDisplayName := .val "Vincent van Gogh",
    primaryImage := some "https://images.metmuseum.org/b.jpg" }

def sampleMetEnv : MetEnv :=
  { search := fun q =>
      if q = "Sunflowers Vincent van Gogh" then .ok (.val [1, 2])
      else .error .err,
    searchByArtist := fun _ => .error .err,
    objects := fun oid =>
      if oid = 1 then .ok metObjA
      else if oid = 2 then .ok metObjB
      else .error .err }

def emptyAIBundle : AIContextBundle :=
  { similar_artworks := [], historical_context := none,
    contemporary_artists := [] }

def constExpl : RelatedArtwork → String :=
  fun _ => "Related artwork in a similar style"

def errMetEnv : MetEnv :=
  { search := fun _ => .ok (.val [7]),
    searchByArtist := fun _ => .ok (.val [7]),
    objects := fun _ => .error .err }

def sampleAttempt : QuizAttempt :=
  { id := 1, user_id := 5, artwork_id := 9, questions := "serialized-questions-1",
    score := none, completed := false, started_at := 10 }

def sampleQuizDB : QuizDB := { attempts := [sampleAttempt], nextId := 2 }

end ArtLens

namespace ArtLens

/-- C1: for every parsed reply claiming success, the gate returns
`success = false` whenever `title` or `artist` is missing or the reported
confidence (0 when absent) is below 0.7, whatever the other fields hold. -/
theorem gate_rejects_incomplete_or_low_confidence
    (r : RecognitionResult)
    (hs : r.success = true)
    (h : r.title = none ∨ r.artist = none ∨ r.confidence.getD 0 < (7 : Rat) / 10) :
    (recognize_artwork_gate r).success = false := by
  unfold recognize_artwork_gate
  rcases h with h | h | h
  · simp [hs, h, missingFieldsFailure]
  · simp [hs, h, missingFieldsFailure]
  · by_cases ht : r.title.isSome ∧ r.artist.isSome
    · simp [hs, ht, h, lowConfidenceFailure]
    · simp [hs, ht, missingFieldsFailure]

/-- Witness for C1: a concrete parsed reply claiming success with both
required fields but confidence 0.5 is demoted to failure. -/
theorem gate_rejects_incomplete_or_low_confidence_witness :
    (recognize_artwork_gate
      { success := true, title := some "The Starry Night",
        artist := some "Vincent van Gogh", year := some 1889,
        movement := some "Post-Impressionism", description := none,
        confidence := some ((1 : Rat) / 2), is_artwork := some true,
        message := none, suggestions := [] }).success = false :=
  gate_rejects_incomplete_or_low_confidence _ rfl
    (Or.inr (Or.inr (by norm_num)))

/-! ### Helper lemmas on the list model of the store -/

theorem find?_append_of_none {α : Type} {p : α → Bool} {l1 : List α}
    (l2 : List α) (h : l1.find? p = none) :
    (l1 ++ l2).find? p = l2.find? p := by
  simp [List.find?_append, h]

theorem updateFirst_length {α : Type} (p : α → Bool) (f : α → α)
    (l : List α) : (updateFirst p f l).length = l.length := by
  induction l with
  | nil => rfl
  | cons x xs ihx =>
    by_cases hp : p x <;> simp [updateFirst, hp, ihx]

theorem updateFirst_getElem? {α : Type} (p : α → Bool) (f : α → α)
    (l : List α) (i : Nat) (a : α) (h : l[i]? = some a) :
    (updateFirst p f l)[i]? = some a ∨ (updateFirst p f l)[i]? = some (f a) := by
  induction l generalizing i with
  | nil => simp at h
  | cons x xs ihx =>
    cases i with
    | zero =>
      simp only [List.getElem?_cons_zero, Option.some.injEq] at h
      subst h
      by_cases hp : p x <;> simp [updateFirst, hp]
    | succ n =>
      simp only [List.getElem?_cons_succ] at h
      cases hp : p x with
      | true =>
        simp only [updateFirst, hp, if_true, List.getElem?_cons_succ]
        exact Or.inl h
      | false =>
        simp only [updateFirst, hp, Bool.false_eq_true, if_false,
          List.getElem?_cons_succ]
        exact ihx n h

theorem self_ne_append_singleton {α : Type} (l : List α) (x : α) :
    l ≠ l ++ [x] := by
  intro h
  have := congrArg List.length h
  simp at this

theorem finishSuccess_spec (db : ArtworkDB) (user : UserState) (artwork : Artwork) :
    ∃ o, finishSuccess db user artwork = .ok o ∧ o.db = db ∧
      o.response.cached = false ∧ o.response.success = true ∧
      o.response.artwork_id = some artwork.id ∧ o.aiInvoked = true :=
  ⟨_, rfl, rfl, rfl, rfl, rfl, rfl⟩

theorem recognizeWithAI_creates (db : ArtworkDB) (user : UserState)
    (ih : Option String) (fn : String) (ai : RecognitionResult) (t s : String)
    (hs : ai.success = true) (ht : ai.title = some t) (hA : ai.artist = some s)
    (hT : findByTitle db t = none) :
    recognizeWithAI db user ih fn ai =
      finishSuccess
        { artworks := db.artworks ++ [newArtworkRow db ih fn ai t s],
          nextId := db.nextId + 1 }
        user (newArtworkRow db ih fn ai t s) := by
  simp only [recognizeWithAI, hs, ht, hT, hA, if_true]

/-- C10: a content-hash cache hit leaves the requesting user untouched,
while a fresh (non-cached) successful recognition adds exactly 10 XP and
increments `artworks_discovered` by one. -/
theorem recognize_user_frame
    (db : ArtworkDB) (user : UserState) (ih : Option String) (fn : String)
    (ai : RecognitionResult) (o : RecognizeOutcome)
    (hrec : recognize db user ih fn ai = .ok o) :
    ((∃ h a, ih = some h ∧ findByHash db h = some a) → o.user = user) ∧
    (o.response.cached = false → o.response.success = true →
      o.user.xp = user.xp + 10 ∧
      o.user.artworks_discovered = user.artworks_discovered + 1) := by
  have hAI : ∀ (hrec' : recognizeWithAI db user ih fn ai = .ok o),
      o.response.cached = false → o.response.success = true →
      o.user.xp = user.xp + 10 ∧
      o.user.artworks_discovered = user.artworks_discovered + 1 := by
    intro hrec' _ hsucc
    unfold recognizeWithAI at hrec'
    split at hrec'
    · split at hrec'
      · exact absurd hrec' (by simp)
      · split at hrec'
        · split at hrec'
          · exact absurd hrec' (by simp)
          · unfold finishSuccess at hrec'
            cases hrec'
            simp [UserState.add_xp, UserState.increment_artworks_discovered]
        · unfold finishSuccess at hrec'
          cases hrec'
          simp [UserState.add_xp, UserState.increment_artworks_discovered]
    · cases hrec'
      simp at hsucc
  cases ih with
  | none =>
    exact ⟨(by rintro ⟨h, a, hcontra, -⟩; cases hcontra), hAI hrec⟩
  | some h =>
    cases hf : findByHash db h with
    | some a =>
      simp only [recognize, hf] at hrec
      cases hrec
      exact ⟨fun _ => rfl, by intro hc; simp [cacheHitOutcome] at hc⟩
    | none =>
      simp only [recognize, hf] at hrec
      refine ⟨?_, hAI hrec⟩
      rintro ⟨h', a, hh, hfind⟩
      cases hh
      rw [hf] at hfind
      cases hfind

/-- Witness for C10: on a store holding a row with hash `"abc123"`, a
hash-hit request leaves the user unchanged, and on an empty store a
successful recognition adds 10 XP and one discovery. -/
theorem recognize_user_frame_witness :
    (∃ o, recognize sampleDB sampleUser (some "abc123") "f.jpg" monaLisaAI
        = .ok o ∧ o.user = sampleUser) ∧
    (∃ o, recognize emptyDB sampleUser (some "ffff") "f.jpg" monaLisaAI
        = .ok o ∧ o.user.xp = 40 ∧ o.user.artworks_discovered = 4) := by
  constructor
  · refine ⟨_, rfl, ?_⟩
    exact (recognize_user_frame sampleDB sampleUser (some "abc123") "f.jpg"
      monaLisaAI _ rfl).1 ⟨"abc123", starryNight, rfl, rfl⟩
  · refine ⟨_, rfl, ?_⟩
    have h10 := (recognize_user_frame emptyDB sampleUser (some "ffff") "f.jpg"
      monaLisaAI _ rfl).2 rfl rfl
    simpa [sampleUser] using h10

theorem getElem?_append_left' {α : Type} (l1 l2 : List α) (i : Nat) (a : α)
    (h : l1[i]? = some a) : (l1 ++ l2)[i]? = some a := by
  induction l1 generalizing i with
  | nil => simp at h
  | cons x xs ihx =>
    cases i with
    | zero => simpa using h
    | succ n =>
      simp only [List.getElem?_cons_succ] at h
      simpa using ihx n h

theorem recognizeWithAI_updates (db : ArtworkDB) (user : UserState)
    (ih : Option String) (fn : String) (ai : RecognitionResult) (t : String)
    (artwork : Artwork)
    (hs : ai.success = true) (ht : ai.title = some t)
    (hT : findByTitle db t = some artwork) :
    recognizeWithAI db user ih fn ai =
      finishSuccess (updatedDB db t ih (ai.confidence.getD 0))
        user (applyRecognitionUpdate ih (ai.confidence.getD 0) artwork) := by
  simp only [recognizeWithAI, hs, ht, hT, if_true]

theorem applyRecognitionUpdate_confidence (ih : Option String) (c : Rat)
    (a : Artwork) :
    (applyRecognitionUpdate ih c a).confidence = a.confidence ∨
    (a.confidence.getD 0 < c ∧
      (applyRecognitionUpdate ih c a).confidence = some c) := by
  have hstep : ∀ b : Artwork,
      (if b.image_hash.isNone ∧ ih.isSome
       then ({ b with image_hash := ih } : Artwork) else b).confidence
        = b.confidence := by
    intro b; split <;> rfl
  simp only [applyRecognitionUpdate]
  by_cases hc : c > a.confidence.getD 0
  · right
    rw [if_pos hc, hstep]
    exact ⟨hc, rfl⟩
  · left
    rw [if_neg hc, hstep]

/-- C8: each recognition event leaves every stored row's confidence
either unchanged or overwritten with a strictly greater value; in
particular the stored confidence never decreases. -/
theorem recognize_confidence_monotone
    (db : ArtworkDB) (user : UserState) (ih : Option String) (fn : String)
    (ai : RecognitionResult) (o : RecognizeOutcome) (i : Nat) (old : Artwork)
    (hrec : recognize db user ih fn ai = .ok o)
    (hold : db.artworks[i]? = some old) :
    ∃ new, o.db.artworks[i]? = some new ∧
      (new.confidence = old.confidence ∨
        (∃ c, new.confidence = some c ∧ old.confidence.getD 0 < c)) ∧
      old.confidence.getD 0 ≤ new.confidence.getD 0 := by
  have hAI : ∀ (h' : recognizeWithAI db user ih fn ai = .ok o),
      ∃ new, o.db.artworks[i]? = some new ∧
        (new.confidence = old.confidence ∨
          (∃ c, new.confidence = some c ∧ old.confidence.getD 0 < c)) ∧
        old.confidence.getD 0 ≤ new.confidence.getD 0 := by
    intro h'
    by_cases hs : ai.success
    · cases ht : ai.title with
      | none =>
        simp only [recognizeWithAI, hs, ht, if_true] at h'
        exact Except.noConfusion h'
      | some t =>
        cases hT : findByTitle db t with
        | none =>
          cases hA : ai.artist with
          | none =>
            simp only [recognizeWithAI, hs, ht, hT, hA, if_true] at h'
            exact Except.noConfusion h'
          | some s =>
            rw [recognizeWithAI_creates db user ih fn ai t s
              (by simpa using hs) ht hA hT] at h'
            unfold finishSuccess at h'
            cases h'
            refine ⟨old, ?_, Or.inl rfl, le_refl _⟩
            exact getElem?_append_left' _ _ _ _ hold
        | some artwork =>
          rw [recognizeWithAI_updates db user ih fn ai t artwork
            (by simpa using hs) ht hT] at h'
          unfold finishSuccess at h'
          cases h'
          rcases updateFirst_getElem? (fun a => a.title == t)
              (applyRecognitionUpdate ih (ai.confidence.getD 0))
              db.artworks i old hold with hcase | hcase
          · exact ⟨old, hcase, Or.inl rfl, le_refl _⟩
          · refine ⟨_, hcase, ?_, ?_⟩
            · rcases applyRecognitionUpdate_confidence ih (ai.confidence.getD 0)
                old with hconf | ⟨hlt, hconf⟩
              · exact Or.inl hconf
              · exact Or.inr ⟨_, hconf, hlt⟩
            · rcases applyRecognitionUpdate_confidence ih (ai.confidence.getD 0)
                old with hconf | ⟨hlt, hconf⟩
              · rw [hconf]
              · rw [hconf]
                exact le_of_lt hlt
    · have hs' : ai.success = false := by simpa using hs
      simp only [recognizeWithAI, hs', Bool.false_eq_true, if_false] at h'
      cases h'
      exact ⟨old, hold, Or.inl rfl, le_refl _⟩
  cases ih with
  | none => exact hAI hrec
  | some h =>
    cases hf : findByHash db h with
    | some a =>
      simp only [recognize, hf] at hrec
      cases hrec
      exact ⟨old, hold, Or.inl rfl, le_refl _⟩
    | none =>
      simp only [recognize, hf] at hrec
      exact hAI hrec

/-- Witness for C8: re-recognizing the stored Starry Night row at
confidence 0.99 raises the stored 0.95 and never lowers it. -/
theorem recognize_confidence_monotone_witness :
    ∃ o new, recognize sampleDB sampleUser none "f.jpg" starryNightAI = .ok o ∧
      o.db.artworks[0]? = some new ∧
      (new.confidence = starryNight.confidence ∨
        (∃ c, new.confidence = some c ∧ starryNight.confidence.getD 0 < c)) ∧
      starryNight.confidence.getD 0 ≤ new.confidence.getD 0 := by
  obtain ⟨new, h1, h2, h3⟩ := recognize_confidence_monotone sampleDB sampleUser
    none "f.jpg" starryNightAI _ 0 starryNight rfl rfl
  exact ⟨_, new, rfl, h1, h2, h3⟩

/-- C4 counterexample: after the culture and tag steps fail, year 1870
with artist "Claude Monet" infers "Realism", not "Impressionism" (the
artist override is consulted only for 1880–1904), and year 1300 infers
"Unknown", not "Medieval" (the year regex matches 1400–2099 only), so
the claimed triple of mappings is false. -/
theorem movement_inference_claim_counterexample :
    ¬ (infer_art_movement emptyMetObject (some "Claude Monet") (some "1870")
          = .ok "Impressionism" ∧
       infer_art_movement emptyMetObject (some "Claude Monet") (some "1300")
          = .ok "Medieval" ∧
       infer_art_movement emptyMetObject (some "Claude Monet") (some "2010")
          = .ok "21st Century") := by
  intro h
  have h1 := h.1
  rw [show infer_art_movement emptyMetObject (some "Claude Monet") (some "1870")
      = .ok "Realism" from rfl] at h1
  exact absurd (Except.ok.inj h1) (by decide)

/-- C4 (amended): with the culture and tag steps failing, the
year-based inference maps 1870 + "Claude Monet" to "Realism" (the
Impressionist-artist override applies only to years 1880–1904, e.g.
1885 ↦ "Impressionism"), maps 1300 to "Unknown" (the year regex matches
only 1400–2099, so no year is extracted and the classification default
applies), and maps 2010 to "21st Century". -/
theorem movement_inference_year_buckets :
    infer_art_movement emptyMetObject (some "Claude Monet") (some "1870")
        = .ok "Realism" ∧
    infer_art_movement emptyMetObject (some "Claude Monet") (some "1885")
        = .ok "Impressionism" ∧
    infer_art_movement emptyMetObject (some "Claude Monet") (some "1300")
        = .ok "Unknown" ∧
    infer_art_movement emptyMetObject (some "Claude Monet") (some "2010")
        = .ok "21st Century" :=
  ⟨rfl, by rfl, rfl, rfl⟩

theorem foldr_max_attained {α : Type} (f : α → Nat) :
    ∀ (l : List α), l ≠ [] → ∃ x ∈ l, f x = (l.map f).foldr max 0
  | [], h => absurd rfl h
  | [a], _ => ⟨a, by simp⟩
  | a :: b :: l, _ => by
    rcases foldr_max_attained f (b :: l) (by simp) with ⟨x, hx, hfx⟩
    rcases Nat.le_total (((b :: l).map f).foldr max 0) (f a) with hle | hle
    · refine ⟨a, by simp, ?_⟩
      simp only [List.map_cons, List.foldr_cons] at hle ⊢
      exact (Nat.max_eq_left hle).symm
    · refine ⟨x, List.mem_cons_of_mem a hx, ?_⟩
      simp only [List.map_cons, List.foldr_cons] at hle hfx ⊢
      rw [Nat.max_eq_right hle]
      exact hfx

theorem latestAttempt_eq_none_iff (db : QuizDB) (uid aid : Nat) :
    latestAttempt db uid aid = none ↔ attemptsFor db uid aid = [] := by
  constructor
  · intro h
    by_contra hne
    rcases foldr_max_attained (fun q => q.started_at) (attemptsFor db uid aid)
      hne with ⟨x, hx, hfx⟩
    have : (latestAttempt db uid aid).isSome := by
      simp only [latestAttempt]
      rw [List.find?_isSome]
      exact ⟨x, hx, by simp [hfx]⟩
    rw [h] at this
    simp at this
  · intro h
    simp [latestAttempt, h]

theorem latestAttempt_mem (db : QuizDB) (uid aid : Nat) (qa : QuizAttempt)
    (h : latestAttempt db uid aid = some qa) : qa ∈ attemptsFor db uid aid := by
  simp only [latestAttempt] at h
  exact List.mem_of_find?_eq_some h

/-- C7: when the (user, artwork) pair already has attempts (whose stored
question strings agree, an invariant the endpoint preserves), the quiz
endpoint serves the stored serialized questions verbatim — whether the
latest attempt is incomplete or completed-and-retaken — and generates a
fresh question set only when the pair has no attempt at all. -/
theorem quiz_questions_generated_once
    (db : QuizDB) (uid aid : Nat) (gen : String) (now : Nat)
    (o : QuizModeOutcome) (ho : quiz_mode db uid aid gen now = o)
    (hinv : ∀ p ∈ attemptsFor db uid aid, ∀ q ∈ attemptsFor db uid aid,
      p.questions = q.questions) :
    (attemptsFor db uid aid = [] → o.generated = true ∧ o.questions = gen) ∧
    (attemptsFor db uid aid ≠ [] → o.generated = false ∧
      ∀ a ∈ attemptsFor db uid aid, o.questions = a.questions) ∧
    (∀ p ∈ attemptsFor o.db uid aid, ∀ q ∈ attemptsFor o.db uid aid,
      p.questions = q.questions) := by
  cases hl : latestAttempt db uid aid with
  | none =>
    have hempty : attemptsFor db uid aid = [] :=
      (latestAttempt_eq_none_iff db uid aid).mp hl
    simp only [quiz_mode, hl] at ho
    subst ho
    refine ⟨fun _ => ⟨rfl, rfl⟩, fun hne => absurd hempty hne, ?_⟩
    intro p hp q hq
    simp only [attemptsFor] at hempty
    simp only [attemptsFor, List.filter_append, hempty, List.nil_append] at hp hq
    rcases List.mem_filter.mp hp with ⟨hp1, -⟩
    rcases List.mem_filter.mp hq with ⟨hq1, -⟩
    rw [List.mem_singleton] at hp1 hq1
    rw [hp1, hq1]
  | some qa =>
    have hmem : qa ∈ attemptsFor db uid aid := latestAttempt_mem db uid aid qa hl
    have hne : attemptsFor db uid aid ≠ [] := by
      intro h; rw [h] at hmem; simp at hmem
    cases hc : qa.completed with
    | true =>
      simp only [quiz_mode, hl, hc, if_true] at ho
      subst ho
      refine ⟨fun h => absurd h hne, fun _ => ⟨rfl, ?_⟩, ?_⟩
      · intro a ha
        exact hinv qa hmem a ha
      · intro p hp q hq
        simp only [attemptsFor, List.filter_append] at hp hq
        rw [List.mem_append] at hp hq
        have hnewq : ∀ r : QuizAttempt, r ∈ List.filter
            (fun q => q.user_id == uid && q.artwork_id == aid)
            [retakeAttemptRow db uid aid qa now] →
            r.questions = qa.questions := by
          intro r hr
          rcases List.mem_filter.mp hr with ⟨hr1, -⟩
          rw [List.mem_singleton] at hr1
          rw [hr1]
          rfl
        rcases hp with hp | hp <;> rcases hq with hq | hq
        · exact hinv p hp q hq
        · rw [hinv p hp qa hmem, hnewq q hq]
        · rw [hnewq p hp, hinv qa hmem q hq]
        · rw [hnewq p hp, hnewq q hq]
    | false =>
      simp only [quiz_mode, hl, hc, Bool.false_eq_true, if_false] at ho
      subst ho
      exact ⟨fun h => absurd h hne,
        fun _ => ⟨rfl, fun a ha => hinv qa hmem a ha⟩, hinv⟩

/-- Witness for C7: requesting the quiz for a pair holding one incomplete
attempt serves the stored string and generates nothing. -/
theorem quiz_questions_generated_once_witness :
    (attemptsFor sampleQuizDB 5 9 = [] →
      (quiz_mode sampleQuizDB 5 9 "fresh" 20).generated = true ∧
      (quiz_mode sampleQuizDB 5 9 "fresh" 20).questions = "fresh") ∧
    (attemptsFor sampleQuizDB 5 9 ≠ [] →
      (quiz_mode sampleQuizDB 5 9 "fresh" 20).generated = false ∧
      ∀ a ∈ attemptsFor sampleQuizDB 5 9,
        (quiz_mode sampleQuizDB 5 9 "fresh" 20).questions = a.questions) ∧
    (∀ p ∈ attemptsFor (quiz_mode sampleQuizDB 5 9 "fresh" 20).db 5 9,
      ∀ q ∈ attemptsFor (quiz_mode sampleQuizDB 5 9 "fresh" 20).db 5 9,
      p.questions = q.questions) :=
  quiz_questions_generated_once sampleQuizDB 5 9 "fresh" 20 _ rfl
    (by decide)

/-! ### The Met search selection loop equals the claim's selection rule -/

theorem le_maxScoreOf (l : List (MetObject × Nat)) (p : MetObject × Nat)
    (hp : p ∈ l) : p.2 ≤ maxScoreOf l := by
  induction l with
  | nil => simp at hp
  | cons x xs ihx =>
    have hstep : maxScoreOf (x :: xs) = max x.2 (maxScoreOf xs) := rfl
    rcases List.mem_cons.mp hp with h | h
    · rw [h, hstep]; exact Nat.le_max_left _ _
    · rw [hstep]; exact le_trans (ihx h) (Nat.le_max_right _ _)

theorem maxScoreOf_le (l : List (MetObject × Nat)) (c : Nat)
    (h : ∀ p ∈ l, p.2 ≤ c) : maxScoreOf l ≤ c := by
  induction l with
  | nil => exact Nat.zero_le c
  | cons x xs ihx =>
    have hstep : maxScoreOf (x :: xs) = max x.2 (maxScoreOf xs) := rfl
    rw [hstep]
    exact Nat.max_le.mpr ⟨h x (by simp), ihx (fun p hp => h p (by simp [hp]))⟩

theorem find?_filter_sub (l : List (MetObject × Nat))
    (P Q : MetObject × Nat → Bool) (himp : ∀ x, P x = true → Q x = true) :
    (l.filter Q).find? P = l.find? P := by
  induction l with
  | nil => rfl
  | cons x xs ihx =>
    cases hq : Q x with
    | true =>
      cases hP : P x with
      | true => simp [List.filter_cons, hq, List.find?_cons, hP]
      | false => simp [List.filter_cons, hq, List.find?_cons, hP, ihx]
    | false =>
      have hP : P x = false := by
        cases hP : P x
        · rfl
        · exact absurd (himp x hP) (by simp [hq])
      simp [List.filter_cons, hq, List.find?_cons, hP, ihx]

theorem maxScoreOf_filter_gt (l : List (MetObject × Nat)) (c : Nat)
    (h : c < maxScoreOf l) :
    maxScoreOf (l.filter (fun p => decide (c < p.2))) = maxScoreOf l := by
  induction l with
  | nil => simp [maxScoreOf] at h
  | cons x xs ihx =>
    have hstep : maxScoreOf (x :: xs) = max x.2 (maxScoreOf xs) := rfl
    by_cases hx : c < x.2
    · rw [List.filter_cons_of_pos (by simpa using hx)]
      have hstep2 : maxScoreOf (x :: xs.filter (fun p => decide (c < p.2)))
          = max x.2 (maxScoreOf (xs.filter (fun p => decide (c < p.2)))) := rfl
      rw [hstep2, hstep]
      by_cases hxs : c < maxScoreOf xs
      · rw [ihx hxs]
      · push_neg at hxs
        have hnil : xs.filter (fun p => decide (c < p.2)) = [] := by
          rw [List.filter_eq_nil_iff]
          intro p hp
          simp only [decide_eq_true_eq]
          have := le_maxScoreOf xs p hp
          omega
        rw [hnil]
        have h0 : maxScoreOf ([] : List (MetObject × Nat)) = 0 := rfl
        rw [h0, Nat.max_eq_left (Nat.zero_le _),
          Nat.max_eq_left (le_trans hxs (le_of_lt hx))]
    · rw [List.filter_cons_of_neg (by simpa using hx)]
      have hxle : x.2 ≤ c := Nat.le_of_not_lt hx
      have hx2M : x.2 ≤ maxScoreOf xs := by
        by_contra hcon
        push_neg at hcon
        rw [hstep, Nat.max_eq_left (le_of_lt hcon)] at h
        omega
      have hM : maxScoreOf (x :: xs) = maxScoreOf xs := by
        rw [hstep]; exact Nat.max_eq_right hx2M
      rw [hM] at h ⊢
      exact ihx h

theorem acceptedAbove_nested (bs s : Nat) (hlt : bs < s)
    (l : List (MetObject × Nat)) :
    acceptedAbove s l = (acceptedAbove bs l).filter (fun p => decide (s < p.2)) := by
  induction l with
  | nil => rfl
  | cons x xs ihx =>
    by_cases h8 : (8 : Nat) ≤ x.2
    · by_cases hs2 : s < x.2
      · have hbs2 : bs < x.2 := lt_trans hlt hs2
        simp [acceptedAbove, List.filter_cons, h8, hs2, hbs2] at ihx ⊢
        exact ihx
      · by_cases hbs2 : bs < x.2 <;>
          (simp [acceptedAbove, List.filter_cons, h8, hs2, hbs2] at ihx ⊢;
           exact ihx)
    · simp [acceptedAbove, List.filter_cons, h8] at ihx ⊢
      exact ihx

theorem selectLoopPure_eq (l : List (MetObject × Nat)) :
    ∀ (best : Option MetObject) (bs : Nat),
      selectLoopPure l best bs =
        if acceptedAbove bs l = [] then best
        else
          ((acceptedAbove bs l).find?
            (fun p => p.2 == maxScoreOf (acceptedAbove bs l))).map Prod.fst := by
  induction l with
  | nil => intro best bs; rfl
  | cons x xs ihx =>
    intro best bs
    obtain ⟨d, s⟩ := x
    by_cases hcond : 8 ≤ s ∧ bs < s
    · have hcons : acceptedAbove bs ((d, s) :: xs)
          = (d, s) :: acceptedAbove bs xs := by
        simp [acceptedAbove, List.filter_cons, hcond.1, hcond.2]
      rw [show selectLoopPure ((d, s) :: xs) best bs
          = selectLoopPure xs (some d) s from by simp [selectLoopPure, hcond]]
      rw [ihx (some d) s, hcons, if_neg (List.cons_ne_nil _ _)]
      have hB := acceptedAbove_nested bs s hcond.2 xs
      by_cases hBn : acceptedAbove s xs = []
      · rw [if_pos hBn]
        have hle : ∀ p ∈ acceptedAbove bs xs, p.2 ≤ s := by
          intro p hp
          by_contra hgt
          push_neg at hgt
          have hpmem : p ∈ acceptedAbove s xs := by
            rw [hB]
            exact List.mem_filter.mpr ⟨hp, by simpa using hgt⟩
          rw [hBn] at hpmem
          simp at hpmem
        have hM : maxScoreOf ((d, s) :: acceptedAbove bs xs) = s := by
          have hub : maxScoreOf (acceptedAbove bs xs) ≤ s := maxScoreOf_le _ _ hle
          have hstep : maxScoreOf ((d, s) :: acceptedAbove bs xs)
              = max s (maxScoreOf (acceptedAbove bs xs)) := rfl
          rw [hstep]; exact Nat.max_eq_left hub
        rw [hM]
        simp [List.find?_cons]
      · rw [if_neg hBn]
        obtain ⟨b, B2, hc⟩ : ∃ b B2, acceptedAbove s xs = b :: B2 := by
          cases hc : acceptedAbove s xs with
          | nil => exact absurd hc hBn
          | cons b B2 => exact ⟨b, B2, rfl⟩
        have hbmem : b ∈ acceptedAbove s xs := by
          rw [hc]; exact List.mem_cons_self b B2
        have hsb : s < b.2 := by
          rw [hB] at hbmem
          simpa using (List.mem_filter.mp hbmem).2
        have hbA : b ∈ acceptedAbove bs xs := by
          rw [hB] at hbmem
          exact List.mem_of_mem_filter hbmem
        have hsM : s < maxScoreOf (acceptedAbove bs xs) :=
          lt_of_lt_of_le hsb (le_maxScoreOf _ _ hbA)
        have hMcons : maxScoreOf ((d, s) :: acceptedAbove bs xs)
            = maxScoreOf (acceptedAbove bs xs) := by
          have hstep : maxScoreOf ((d, s) :: acceptedAbove bs xs)
              = max s (maxScoreOf (acceptedAbove bs xs)) := rfl
          rw [hstep]; exact Nat.max_eq_right (le_of_lt hsM)
        rw [hMcons]
        have hMB : maxScoreOf (acceptedAbove s xs)
            = maxScoreOf (acceptedAbove bs xs) := by
          rw [hB]; exact maxScoreOf_filter_gt _ _ hsM
        rw [hMB]
        rw [show acceptedAbove s xs
            = (acceptedAbove bs xs).filter (fun p => decide (s < p.2)) from hB]
        rw [find?_filter_sub _ _ _ (by
          intro y hy
          simp only [beq_iff_eq] at hy
          simp only [decide_eq_true_eq]
          omega)]
        have hskip : List.find? (fun p => p.2 == maxScoreOf (acceptedAbove bs xs))
            ((d, s) :: acceptedAbove bs xs)
            = List.find? (fun p => p.2 == maxScoreOf (acceptedAbove bs xs))
                (acceptedAbove bs xs) := by
          rw [List.find?_cons_of_neg]
          simp only [beq_iff_eq]
          omega
        rw [hskip]
    · have hdrop : acceptedAbove bs ((d, s) :: xs) = acceptedAbove bs xs := by
        rcases Decidable.not_and_iff_or_not.mp hcond with h8 | hbs
        · simp [acceptedAbove, List.filter_cons, h8]
        · simp [acceptedAbove, List.filter_cons, hbs]
      rw [show selectLoopPure ((d, s) :: xs) best bs
          = selectLoopPure xs best bs from by simp [selectLoopPure, hcond]]
      rw [ihx best bs, hdrop]

theorem searchLoop_eq_selectLoopPure (env : MetEnv) (st sa : String) :
    ∀ (ids : List Nat) (best : Option MetObject) (bs : Nat),
      searchLoop env st sa ids best bs =
        selectLoopPure (scoredCandidates env st sa ids) best bs := by
  intro ids
  induction ids with
  | nil => intro best bs; rfl
  | cons oid rest ihx =>
    intro best bs
    cases hobj : env.objects oid with
    | error e =>
      simp only [searchLoop, scoredCandidates, List.filterMap_cons, hobj]
      exact ihx best bs
    | ok data =>
      cases himg : strTruthy data.primaryImage with
      | false =>
        simp only [searchLoop, scoredCandidates, List.filterMap_cons, hobj, himg]
        simpa using ihx best bs
      | true =>
        simp only [searchLoop, scoredCandidates, List.filterMap_cons, hobj,
          himg, if_true, selectLoopPure]
        by_cases hcond : 8 ≤ scoreCandidate st sa (normStr data.title)
            (normStr data.artistDisplayName) ∧
            bs < scoreCandidate st sa (normStr data.title)
              (normStr data.artistDisplayName)
        · simp only [hcond, if_true]
          exact ihx (some data) _
        · simp only [hcond, if_false]
          exact ihx best bs

theorem scoredCandidates_have_image (env : MetEnv) (st sa : String)
    (ids : List Nat) :
    ∀ p ∈ scoredCandidates env st sa ids,
      strTruthy p.1.primaryImage = true := by
  intro p hp
  simp only [scoredCandidates, List.mem_filterMap] at hp
  obtain ⟨oid, -, hoid⟩ := hp
  cases hobj : env.objects oid with
  | error e => simp [hobj] at hoid
  | ok data =>
    cases himg : strTruthy data.primaryImage with
    | false => simp [hobj, himg] at hoid
    | true =>
      simp [hobj, himg] at hoid
      rw [← hoid]
      exact himg

/-- C6: the Met search scores each fetched candidate by the claim's
table — exact title match 10, substring with length ratio above one half
5, weak substrings 1 or 3, exact artist 10, partial containment 5,
last-name match 3 — accepts a candidate only with an image and a total
score of at least 8, and among accepted candidates the highest score
wins with ties broken in first-seen order. -/
theorem met_search_scoring_and_selection :
    (∀ st sa oa, scoreCandidate st sa st oa = 10 + scoreArtist sa oa) ∧
    (∀ st sa ot oa, ot ≠ st → strIn st ot = true →
      2 * st.length > max ot.length 1 →
      scoreCandidate st sa ot oa = 5 + scoreArtist sa oa) ∧
    (∀ st sa ot oa, ot ≠ st → strIn st ot = true →
      ¬ 2 * st.length > max ot.length 1 →
      scoreCandidate st sa ot oa = 1 + scoreArtist sa oa) ∧
    (∀ st sa ot oa, ot ≠ st → strIn st ot = false → strIn ot st = true →
      scoreCandidate st sa ot oa = 3 + scoreArtist sa oa) ∧
    (∀ sa, sa ≠ "" → scoreArtist sa sa = 10) ∧
    (∀ sa oa, oa ≠ "" → sa ≠ "" → oa ≠ sa →
      (strIn sa oa || strIn oa sa) = true → scoreArtist sa oa = 5) ∧
    (∀ sa oa, oa ≠ "" → sa ≠ "" → oa ≠ sa →
      (strIn sa oa || strIn oa sa) = false →
      lastWord oa ≠ "" → lastWord sa ≠ "" → lastWord oa = lastWord sa →
      scoreArtist sa oa = 3) ∧
    (∀ env t a v ids, env.search (t ++ " " ++ a) = .ok v →
      v.getNone = some ids → ids ≠ [] →
      (∀ p ∈ scoredCandidates env (pyLower t).trim (pyLower a).trim
          (ids.take 10), strTruthy p.1.primaryImage = true) ∧
      search_met_artwork env t a =
        (specBestMatch (scoredCandidates env (pyLower t).trim (pyLower a).trim
          (ids.take 10))).map mkMetSearchResult) := by
  refine ⟨?_, ?_, ?_, ?_, ?_, ?_, ?_, ?_⟩
  · intro st sa oa
    simp [scoreCandidate, scoreTitle]
  · intro st sa ot oa hne hsub hratio
    have hbeq : (ot == st) = false := by simpa using hne
    simp [scoreCandidate, scoreTitle, hbeq, hsub, hratio]
  · intro st sa ot oa hne hsub hratio
    have hbeq : (ot == st) = false := by simpa using hne
    simp [scoreCandidate, scoreTitle, hbeq, hsub, hratio]
  · intro st sa ot oa hne hsub hsub2
    have hbeq : (ot == st) = false := by simpa using hne
    simp [scoreCandidate, scoreTitle, hbeq, hsub, hsub2]
  · intro sa hne
    simp [scoreArtist, hne]
  · intro sa oa hoa hsa hne hcontain
    have hbeq : (oa == sa) = false := by simpa using hne
    simp [scoreArtist, hoa, hsa, hbeq, hcontain]
  · intro sa oa hoa hsa hne hcontain hlo hls hll
    have hbeq : (oa == sa) = false := by simpa using hne
    simp [scoreArtist, hoa, hsa, hbeq, hcontain, hlo, hls, hll]
  · intro env t a v ids hsearch hids hne
    refine ⟨scoredCandidates_have_image env _ _ _, ?_⟩
    have hlen : ¬ ids.length = 0 := by simpa using hne
    have hloop := searchLoop_eq_selectLoopPure env (pyLower t).trim
      (pyLower a).trim (ids.take 10) none 0
    rw [selectLoopPure_eq] at hloop
    unfold search_met_artwork
    rw [hsearch]
    simp only [hids, if_neg hlen]
    rw [hloop]
    unfold specBestMatch
    by_cases hacc : acceptedAbove 0 (scoredCandidates env (pyLower t).trim
        (pyLower a).trim (ids.take 10)) = []
    · rw [if_pos hacc]
      rfl
    · rw [if_neg hacc]
      obtain ⟨q, hq⟩ : ∃ q, (acceptedAbove 0 (scoredCandidates env
          (pyLower t).trim (pyLower a).trim (ids.take 10))).find?
            (fun p => p.2 == maxScoreOf (acceptedAbove 0 (scoredCandidates env
              (pyLower t).trim (pyLower a).trim (ids.take 10)))) = some q := by
        rcases foldr_max_attained (fun p => p.2) _ hacc with ⟨x, hx, hfx⟩
        have hsome : ((acceptedAbove 0 (scoredCandidates env (pyLower t).trim
            (pyLower a).trim (ids.take 10))).find?
              (fun p => p.2 == maxScoreOf (acceptedAbove 0 (scoredCandidates env
                (pyLower t).trim (pyLower a).trim (ids.take 10))))).isSome := by
          rw [List.find?_isSome]
          exact ⟨x, hx, by simpa [maxScoreOf] using hfx⟩
        exact Option.isSome_iff_exists.mp hsome
      rw [hq]
      have hqmem : q ∈ scoredCandidates env (pyLower t).trim (pyLower a).trim
          (ids.take 10) :=
        List.mem_of_mem_filter (List.mem_of_find?_eq_some hq)
      have himg := scoredCandidates_have_image env (pyLower t).trim
        (pyLower a).trim (ids.take 10) q hqmem
      obtain ⟨img, himgeq, himgne⟩ : ∃ img, q.1.primaryImage = some img ∧
          img ≠ "" := by
        cases hcase : q.1.primaryImage with
        | none => rw [hcase] at himg; simp [strTruthy] at himg
        | some img =>
          refine ⟨img, rfl, ?_⟩
          rw [hcase] at himg
          simpa [strTruthy] using himg
      simp [himgeq, himgne]

/-- Witness for C6: against a two-object environment, a query matching
the second object exactly selects it by the specified rule, and the
scoring table evaluates at concrete names. -/
theorem met_search_scoring_and_selection_witness :
    ((∀ p ∈ scoredCandidates sampleMetEnv (pyLower "Sunflowers").trim
        (pyLower "Vincent van Gogh").trim ([1, 2].take 10),
      strTruthy p.1.primaryImage = true) ∧
     search_met_artwork sampleMetEnv "Sunflowers" "Vincent van Gogh" =
       (specBestMatch (scoredCandidates sampleMetEnv
         (pyLower "Sunflowers").trim (pyLower "Vincent van Gogh").trim
         ([1, 2].take 10))).map mkMetSearchResult) ∧
    scoreCandidate "sunflowers" "vincent van gogh" "sunflowers"
      "vincent van gogh"
      = 10 + scoreArtist "vincent van gogh" "vincent van gogh" ∧
    scoreArtist "vincent van gogh" "vincent van gogh" = 10 := by
  refine ⟨?_, ?_, ?_⟩
  · exact met_search_scoring_and_selection.2.2.2.2.2.2.2 sampleMetEnv
      "Sunflowers" "Vincent van Gogh" (.val [1, 2]) [1, 2] rfl rfl
      (by simp)
  · exact met_search_scoring_and_selection.1 "sunflowers" "vincent van gogh"
      "vincent van gogh"
  · exact met_search_scoring_and_selection.2.2.2.2.1 "vincent van gogh"
      (by simp)

theorem relatedLoop_all_skip (step : Nat → Except PyErr (Option RelatedArtwork))
    (limit : Nat) (hstep : ∀ oid, step oid = .error PyErr.err) :
    ∀ ids acc, relatedLoop step limit ids acc = acc := by
  intro ids
  induction ids with
  | nil => intro acc; rfl
  | cons oid rest ihx =>
    intro acc
    by_cases hl : limit ≤ acc.length
    · simp [relatedLoop, hl]
    · simp [relatedLoop, hl, hstep oid, ihx]

/-- C9: the two museum cross-reference retrievals never surface an
exception: they always answer `.ok`; a failed search call, like a search
whose every candidate fetch fails, degrades to the empty list. -/
theorem related_search_never_raises :
    (∀ env a excl limit, ∃ l,
      find_related_artworks_by_artist env a excl limit = .ok l) ∧
    (∀ env a excl limit e, env.searchByArtist a = .error e →
      find_related_artworks_by_artist env a excl limit = .ok []) ∧
    (∀ env a excl limit v ids, env.searchByArtist a = .ok v →
      v.getNone = some ids → (∀ oid, env.objects oid = .error PyErr.err) →
      find_related_artworks_by_artist env a excl limit = .ok []) ∧
    (∀ env s limit, ∃ l,
      find_related_artworks_by_style env s limit = .ok l) ∧
    (∀ env s limit e, env.search s = .error e →
      find_related_artworks_by_style env s limit = .ok []) ∧
    (∀ env s limit v ids, env.search s = .ok v → v.getNone = some ids →
      (∀ oid, env.objects oid = .error PyErr.err) →
      find_related_artworks_by_style env s limit = .ok []) := by
  refine ⟨?_, ?_, ?_, ?_, ?_, ?_⟩
  · intro env a excl limit
    rcases hbody : bodyByArtist env a excl limit with e | l
    · exact ⟨[], by simp [find_related_artworks_by_artist, hbody]⟩
    · exact ⟨l, by simp [find_related_artworks_by_artist, hbody]⟩
  · intro env a excl limit e hs
    simp [find_related_artworks_by_artist, bodyByArtist, hs]
  · intro env a excl limit v ids hs hv hobj
    by_cases hlen : ids.length = 0
    · simp [find_related_artworks_by_artist, bodyByArtist, hs, hv, hlen]
    · have hloop := relatedLoop_all_skip (buildArtistEntry env a excl) limit
        (fun oid => by simp [buildArtistEntry, hobj oid]) (ids.take 20) []
      simp [find_related_artworks_by_artist, bodyByArtist, hs, hv, hlen, hloop]
  · intro env s limit
    rcases hbody : bodyByStyle env s limit with e | l
    · exact ⟨[], by simp [find_related_artworks_by_style, hbody]⟩
    · exact ⟨l, by simp [find_related_artworks_by_style, hbody]⟩
  · intro env s limit e hs
    simp [find_related_artworks_by_style, bodyByStyle, hs]
  · intro env s limit v ids hs hv hobj
    by_cases hlen : ids.length = 0
    · simp [find_related_artworks_by_style, bodyByStyle, hs, hv, hlen]
    · have hloop := relatedLoop_all_skip (buildStyleEntry env) limit
        (fun oid => by simp [buildStyleEntry, hobj oid]) (ids.take 20) []
      simp [find_related_artworks_by_style, bodyByStyle, hs, hv, hlen, hloop]

/-- Witness for C9: concrete environments with a failing search, and
with a succeeding search whose every object fetch fails, both answer
`.ok []`. -/
theorem related_search_never_raises_witness :
    (∃ l, find_related_artworks_by_artist sampleMetEnv "Vincent van Gogh"
      (some "Sunflowers") 3 = .ok l) ∧
    find_related_artworks_by_artist sampleMetEnv "Vincent van Gogh"
      (some "Sunflowers") 3 = .ok [] ∧
    find_related_artworks_by_artist errMetEnv "Claude Monet" none 4 = .ok [] ∧
    (∃ l, find_related_artworks_by_style errMetEnv "Impressionism" 4 = .ok l) ∧
    find_related_artworks_by_style sampleMetEnv "Impressionism" 4 = .ok [] ∧
    find_related_artworks_by_style errMetEnv "Impressionism" 4 = .ok [] := by
  refine ⟨?_, ?_, ?_, ?_, ?_, ?_⟩
  · exact related_search_never_raises.1 sampleMetEnv "Vincent van Gogh"
      (some "Sunflowers") 3
  · exact related_search_never_raises.2.1 sampleMetEnv "Vincent van Gogh"
      (some "Sunflowers") 3 PyErr.err rfl
  · exact related_search_never_raises.2.2.1 errMetEnv "Claude Monet" none 4
      (.val [7]) [7] rfl rfl (fun _ => rfl)
  · exact related_search_never_raises.2.2.2.1 errMetEnv "Impressionism" 4
  · exact related_search_never_raises.2.2.2.2.1 sampleMetEnv "Impressionism" 4
      PyErr.err rfl
  · exact related_search_never_raises.2.2.2.2.2 errMetEnv "Impressionism" 4
      (.val [7]) [7] rfl rfl (fun _ => rfl)

theorem relatedLoop_length_le (step : Nat → Except PyErr (Option RelatedArtwork))
    (limit : Nat) : ∀ (ids : List Nat) (acc : List RelatedArtwork),
      acc.length ≤ limit → (relatedLoop step limit ids acc).length ≤ limit := by
  intro ids
  induction ids with
  | nil => intro acc h; exact h
  | cons oid rest ihx =>
    intro acc h
    by_cases hl : limit ≤ acc.length
    · simpa [relatedLoop, hl] using h
    · rcases hstep : step oid with e | r
      · rw [show relatedLoop step limit (oid :: rest) acc
            = relatedLoop step limit rest acc from by
          simp [relatedLoop, hl, hstep]]
        exact ihx acc h
      · cases r with
        | none =>
          rw [show relatedLoop step limit (oid :: rest) acc
              = relatedLoop step limit rest acc from by
            simp [relatedLoop, hl, hstep]]
          exact ihx acc h
        | some x =>
          rw [show relatedLoop step limit (oid :: rest) acc
              = relatedLoop step limit rest (acc ++ [x]) from by
            simp [relatedLoop, hl, hstep]]
          refine ihx (acc ++ [x]) ?_
          simp only [List.length_append, List.length_singleton]
          omega

theorem find_related_by_artist_length (env : MetEnv) (a : String)
    (excl : Option String) (limit : Nat) (l : List RelatedArtwork)
    (h : find_related_artworks_by_artist env a excl limit = .ok l) :
    l.length ≤ limit := by
  unfold find_related_artworks_by_artist at h
  split at h
  · rename_i l2 hbody
    injection h with h2
    subst h2
    unfold bodyByArtist at hbody
    split at hbody
    · exact Except.noConfusion hbody
    · split at hbody
      · injection hbody with h3
        subst h3
        exact Nat.zero_le _
      · split at hbody
        · injection hbody with h3
          subst h3
          exact Nat.zero_le _
        · injection hbody with h3
          subst h3
          exact relatedLoop_length_le _ _ _ [] (Nat.zero_le _)
  · injection h with h2
    subst h2
    exact Nat.zero_le _

theorem find_related_by_style_length (env : MetEnv) (s : String)
    (limit : Nat) (l : List RelatedArtwork)
    (h : find_related_artworks_by_style env s limit = .ok l) :
    l.length ≤ limit := by
  unfold find_related_artworks_by_style at h
  split at h
  · rename_i l2 hbody
    injection h with h2
    subst h2
    unfold bodyByStyle at hbody
    split at hbody
    · exact Except.noConfusion hbody
    · split at hbody
      · injection hbody with h3
        subst h3
        exact Nat.zero_le _
      · split at hbody
        · injection hbody with h3
          subst h3
          exact Nat.zero_le _
        · injection hbody with h3
          subst h3
          exact relatedLoop_length_le _ _ _ [] (Nat.zero_le _)
  · injection h with h2
    subst h2
    exact Nat.zero_le _

theorem enrichLoop_spec (env : MetEnv) (db : ArtworkDB) :
    ∀ (sugs : List AISuggestion) (acc : List RelatedArtwork),
      acc.length < 3 →
      ∀ res, enrichLoop env db sugs acc = .ok res →
      res.length ≤ 3 ∧ ∃ x, res = acc ++ x ∧ ∀ e ∈ x,
        (∃ sug ∈ sugs, e = mkSuggestionEntry sug e.image_url) ∧
        strIn "placeholder" e.image_url = false ∧ e.image_url ≠ "" := by
  intro sugs
  induction sugs with
  | nil =>
    intro acc hlt res hres
    injection hres with h2
    subst h2
    exact ⟨by omega, [], by simp, by simp⟩
  | cons sug rest ihx =>
    intro acc hlt res hres
    unfold enrichLoop at hres
    split at hres
    · exact Except.noConfusion hres
    · rename_i image_url himg
      split at hres
      · rename_i hkeep
        split at hres
        · rename_i hfull
          injection hres with h2
          subst h2
          refine ⟨by
              simp only [List.length_append, List.length_singleton]
              omega,
            [mkSuggestionEntry sug image_url], rfl, ?_⟩
          intro e he
          rw [List.mem_singleton] at he
          subst he
          exact ⟨⟨sug, by simp, rfl⟩, hkeep.2, hkeep.1⟩
        · rename_i hnotfull
          have hlt2 : (acc ++ [mkSuggestionEntry sug image_url]).length < 3 := by
            omega
          obtain ⟨hlen, x, hx, hprops⟩ := ihx _ hlt2 res hres
          refine ⟨hlen, mkSuggestionEntry sug image_url :: x, by
            rw [hx]; simp, ?_⟩
          intro e he
          rcases List.mem_cons.mp he with he | he
          · subst he
            exact ⟨⟨sug, by simp, rfl⟩, hkeep.2, hkeep.1⟩
          · obtain ⟨⟨sug2, hsug2, he2⟩, hp2, hp3⟩ := hprops e he
            exact ⟨⟨sug2, by simp [hsug2], he2⟩, hp2, hp3⟩
      · rename_i hdrop
        obtain ⟨hlen, x, hx, hprops⟩ := ihx acc hlt res hres
        refine ⟨hlen, x, hx, ?_⟩
        intro e he
        obtain ⟨⟨sug2, hsug2, he2⟩, hp2, hp3⟩ := hprops e he
        exact ⟨⟨sug2, by simp [hsug2], he2⟩, hp2, hp3⟩

/-- C3: the related-content assembler returns at most 3 entries, built
as same-artist results, then same-movement results only while short of
the quota, then AI suggestions — an AI suggestion entering only with a
non-placeholder, non-empty resolved image URL; the explanation pass only
writes each entry's similarity text. -/
theorem related_content_quota_and_priority
    (env : MetEnv) (db : ArtworkDB) (artwork : Artwork)
    (aiBundle : AIContextBundle) (expl : RelatedArtwork → String)
    (r : RelatedContentResult)
    (hr : get_related_content env db artwork aiBundle expl = .ok r) :
    r.similar_artworks.length ≤ 3 ∧
    ∃ a s x,
      r.similar_artworks
        = (a ++ s ++ x).map (fun e => { e with similarity := some (expl e) }) ∧
      ((artwork.artist ≠ "" ∧
          find_related_artworks_by_artist env artwork.artist
            (some artwork.title) 3 = .ok a) ∨
        (artwork.artist = "" ∧ a = [])) ∧
      a.length ≤ 3 ∧
      ((a.length < 3 ∧ strTruthy artwork.movement = true ∧
          artwork.movement ≠ some "Unknown" ∧
          find_related_artworks_by_style env (artwork.movement.getD "")
            (3 - a.length) = .ok s) ∨
        (¬ (a.length < 3 ∧ strTruthy artwork.movement = true ∧
            artwork.movement ≠ some "Unknown") ∧ s = [])) ∧
      (a ++ s).length ≤ 3 ∧
      ((a ++ s).length = 3 → x = []) ∧
      (∀ e ∈ x,
        (∃ sug ∈ aiBundle.similar_artworks,
          e = mkSuggestionEntry sug e.image_url) ∧
        strIn "placeholder" e.image_url = false ∧ e.image_url ≠ "") := by
  unfold get_related_content at hr
  split at hr
  · exact Except.noConfusion hr
  · rename_i related1 h1
    split at hr
    · exact Except.noConfusion hr
    · rename_i related2 h2
      split at hr
      · exact Except.noConfusion hr
      · rename_i related h3
        injection hr with h4
        subst h4
        have ha : (artwork.artist ≠ "" ∧
            find_related_artworks_by_artist env artwork.artist
              (some artwork.title) 3 = .ok related1) ∨
            (artwork.artist = "" ∧ related1 = []) := by
          by_cases hart : artwork.artist = ""
          · rw [if_neg (by simpa using hart)] at h1
            injection h1 with h1a
            exact Or.inr ⟨hart, h1a.symm⟩
          · rw [if_pos hart] at h1
            exact Or.inl ⟨hart, h1⟩
        have halen : related1.length ≤ 3 := by
          rcases ha with ⟨-, ha2⟩ | ⟨-, ha2⟩
          · exact find_related_by_artist_length _ _ _ _ _ ha2
          · rw [ha2]; exact Nat.zero_le _
        have hs : (related1.length < 3 ∧ strTruthy artwork.movement = true ∧
            artwork.movement ≠ some "Unknown" ∧
            find_related_artworks_by_style env (artwork.movement.getD "")
              (3 - related1.length) = .ok related2) ∨
            (¬ (related1.length < 3 ∧ strTruthy artwork.movement = true ∧
              artwork.movement ≠ some "Unknown") ∧ related2 = []) := by
          by_cases hcnd : related1.length < 3 ∧ strTruthy artwork.movement = true ∧
              artwork.movement ≠ some "Unknown"
          · rw [if_pos hcnd] at h2
            exact Or.inl ⟨hcnd.1, hcnd.2.1, hcnd.2.2, h2⟩
          · rw [if_neg hcnd] at h2
            injection h2 with h2a
            exact Or.inr ⟨hcnd, h2a.symm⟩
        have hslen : (related1 ++ related2).length ≤ 3 := by
          rcases hs with ⟨hlt, -, -, hs2⟩ | ⟨-, hs2⟩
          · have := find_related_by_style_length _ _ _ _ hs2
            simp only [List.length_append]
            omega
          · rw [hs2]
            simpa using halen
        have hL : (if related.isEmpty then related
            else generate_similarity_explanations expl related)
            = generate_similarity_explanations expl related := by
          by_cases hemp : related.isEmpty
          · have hrel : related = [] := by simpa using hemp
            simp [hrel, generate_similarity_explanations]
          · simp [hemp]
        by_cases h12 : (related1 ++ related2).length < 3
        · rw [if_pos h12] at h3
          obtain ⟨hrlen, x, hx, hprops⟩ :=
            enrichLoop_spec env db (aiBundle.similar_artworks.take 3)
              (related1 ++ related2) h12 related h3
          refine ⟨?_, related1, related2, x, ?_, ha, halen, hs, hslen,
            fun h3eq => absurd h12 (by omega), ?_⟩
          · show (if related.isEmpty then related
                else generate_similarity_explanations expl related).length ≤ 3
            rw [hL]
            simpa [generate_similarity_explanations] using hrlen
          · show (if related.isEmpty then related
                else generate_similarity_explanations expl related)
              = (related1 ++ related2 ++ x).map
                  (fun e : RelatedArtwork =>
                    { e with similarity := some (expl e) })
            rw [hL, ← hx]
            rfl
          · intro e he
            obtain ⟨⟨sug2, hsug2, he2⟩, hp2, hp3⟩ := hprops e he
            exact ⟨⟨sug2, List.take_subset 3 _ hsug2, he2⟩, hp2, hp3⟩
        · rw [if_neg h12] at h3
          injection h3 with h3a
          refine ⟨?_, related1, related2, [], ?_, ha, halen, hs, hslen,
            fun _ => rfl, by simp⟩
          · show (if related.isEmpty then related
                else generate_similarity_explanations expl related).length ≤ 3
            rw [hL]
            simp only [generate_similarity_explanations, List.length_map]
            rw [← h3a]
            exact hslen
          · show (if related.isEmpty then related
                else generate_similarity_explanations expl related)
              = (related1 ++ related2 ++ []).map
                  (fun e : RelatedArtwork =>
                    { e with similarity := some (expl e) })
            rw [hL, List.append_nil, h3a]
            rfl

/-- Witness for C3: assembling related content for the stored Starry
Night against an environment whose object fetches all fail yields an
empty, quota-respecting list with the claimed decomposition. -/
theorem related_content_quota_and_priority_witness :
    ∃ r, get_related_content errMetEnv sampleDB starryNight emptyAIBundle
        constExpl = .ok r ∧
      (r.similar_artworks.length ≤ 3 ∧
       ∃ a s x,
         r.similar_artworks = (a ++ s ++ x).map
           (fun e : RelatedArtwork =>
             { e with similarity := some (constExpl e) }) ∧
         ((starryNight.artist ≠ "" ∧
             find_related_artworks_by_artist errMetEnv starryNight.artist
               (some starryNight.title) 3 = .ok a) ∨
           (starryNight.artist = "" ∧ a = [])) ∧
         a.length ≤ 3 ∧
         ((a.length < 3 ∧ strTruthy starryNight.movement = true ∧
             starryNight.movement ≠ some "Unknown" ∧
             find_related_artworks_by_style errMetEnv
               (starryNight.movement.getD "") (3 - a.length) = .ok s) ∨
           (¬ (a.length < 3 ∧ strTruthy starryNight.movement = true ∧
               starryNight.movement ≠ some "Unknown") ∧ s = [])) ∧
         (a ++ s).length ≤ 3 ∧
         ((a ++ s).length = 3 → x = []) ∧
         (∀ e ∈ x, (∃ sug ∈ emptyAIBundle.similar_artworks,
             e = mkSuggestionEntry sug e.image_url) ∧
           strIn "placeholder" e.image_url = false ∧ e.image_url ≠ "")) :=
  ⟨_, rfl, related_content_quota_and_priority errMetEnv sampleDB starryNight
    emptyAIBundle constExpl _ rfl⟩

/-- C5: neither a successful recognition nor the suggestion-create
endpoint ever appends a row whose content hash matches an existing row or
whose (title, artist) pair matches an existing row. -/
theorem artwork_store_uniqueness :
    (∀ db user ih fn ai o new, recognize db user ih fn ai = .ok o →
      o.db.artworks = db.artworks ++ [new] →
      ∀ old ∈ db.artworks,
        (∀ hh, new.image_hash = some hh → ¬ old.image_hash = some hh) ∧
        ¬ (old.title = new.title ∧ old.artist = new.artist)) ∧
    (∀ db user t a y iu d m new,
      (create_artwork db user t a y iu d m).db.artworks = db.artworks ++ [new] →
      ∀ old ∈ db.artworks,
        (∀ hh, new.image_hash = some hh → ¬ old.image_hash = some hh) ∧
        ¬ (old.title = new.title ∧ old.artist = new.artist)) := by
  constructor
  · intro db user ih fn ai o new hrec happ old hmem
    have hAI : ∀ (h' : recognizeWithAI db user ih fn ai = .ok o),
        (ih.isNone ∨ ∃ h, ih = some h ∧ findByHash db h = none) →
        (∀ hh, new.image_hash = some hh → ¬ old.image_hash = some hh) ∧
        ¬ (old.title = new.title ∧ old.artist = new.artist) := by
      intro h' hih
      by_cases hs : ai.success
      · cases ht : ai.title with
        | none =>
          simp only [recognizeWithAI, hs, ht, if_true] at h'
          exact Except.noConfusion h'
        | some t =>
          cases hT : findByTitle db t with
          | none =>
            cases hA : ai.artist with
            | none =>
              simp only [recognizeWithAI, hs, ht, hT, hA, if_true] at h'
              exact Except.noConfusion h'
            | some s =>
              rw [recognizeWithAI_creates db user ih fn ai t s
                (by simpa using hs) ht hA hT] at h'
              unfold finishSuccess at h'
              cases h'
              have hnew : new = newArtworkRow db ih fn ai t s := by
                have := List.append_cancel_left happ
                simpa using this.symm
              subst hnew
              have htitle : ∀ x ∈ db.artworks, ¬ (x.title == t) = true :=
                List.find?_eq_none.mp hT
              constructor
              · intro hh hnewh holdh
                rcases hih with hno | ⟨h, hih, hfind⟩
                · rw [show (newArtworkRow db ih fn ai t s).image_hash = ih
                    from rfl] at hnewh
                  rw [hnewh] at hno
                  simp at hno
                · have hsome : ih = some hh := hnewh
                  rw [hih] at hsome
                  cases hsome
                  have hnone : ∀ x ∈ db.artworks,
                      ¬ (x.image_hash == some hh) = true :=
                    List.find?_eq_none.mp hfind
                  exact hnone old hmem (by simp [holdh])
              · rintro ⟨hteq, -⟩
                exact htitle old hmem (by simp [hteq, newArtworkRow])
          | some artwork =>
            rw [recognizeWithAI_updates db user ih fn ai t artwork
              (by simpa using hs) ht hT] at h'
            unfold finishSuccess at h'
            cases h'
            exfalso
            have hlen := congrArg List.length happ
            simp [updatedDB, updateFirst_length] at hlen
      · have hs' : ai.success = false := by simpa using hs
        simp only [recognizeWithAI, hs', Bool.false_eq_true, if_false] at h'
        cases h'
        exact absurd happ (self_ne_append_singleton _ _)
    cases ih with
    | none => exact hAI hrec (Or.inl rfl)
    | some h =>
      cases hf : findByHash db h with
      | some a =>
        simp only [recognize, hf] at hrec
        cases hrec
        exact absurd happ (self_ne_append_singleton _ _)
      | none =>
        simp only [recognize, hf] at hrec
        exact hAI hrec (Or.inr ⟨h, rfl, hf⟩)
  · intro db user t a y iu d m new happ old hmem
    cases t with
    | none =>
      simp only [create_artwork] at happ
      exact absurd happ (self_ne_append_singleton _ _)
    | some t' =>
      cases a with
      | none =>
        simp only [create_artwork] at happ
        exact absurd happ (self_ne_append_singleton _ _)
      | some a' =>
        cases hTA : findByTitleArtist db t' a' with
        | some existing =>
          simp only [create_artwork, hTA] at happ
          exact absurd happ (self_ne_append_singleton _ _)
        | none =>
          simp only [create_artwork, hTA] at happ
          have hnew : new = createdArtworkRow db t' a' y iu d m := by
            have hcanc := List.append_cancel_left happ
            simpa using hcanc.symm
          subst hnew
          have hpair : ∀ x ∈ db.artworks,
              ¬ (x.title == t' && x.artist == a') = true :=
            List.find?_eq_none.mp hTA
          constructor
          · intro hh hnewh holdh
            exact Option.noConfusion hnewh
          · rintro ⟨hteq, haeq⟩
            exact hpair old hmem (by simp [hteq, haeq, createdArtworkRow])

/-- Witness for C5: recognizing a new Mona Lisa against the sample store
appends a row clashing with the stored Starry Night on neither hash nor
(title, artist); likewise for the create endpoint. -/
theorem artwork_store_uniqueness_witness :
    (∀ old ∈ sampleDB.artworks,
      (∀ hh, (newArtworkRow sampleDB (some "h1") "f.jpg" monaLisaAI
          "Mona Lisa" "Leonardo da Vinci").image_hash = some hh →
        ¬ old.image_hash = some hh) ∧
      ¬ (old.title = (newArtworkRow sampleDB (some "h1") "f.jpg" monaLisaAI
          "Mona Lisa" "Leonardo da Vinci").title ∧
         old.artist = (newArtworkRow sampleDB (some "h1") "f.jpg" monaLisaAI
          "Mona Lisa" "Leonardo da Vinci").artist)) ∧
    (∀ old ∈ sampleDB.artworks,
      (∀ hh, (createdArtworkRow sampleDB "Mona Lisa" "Leonardo da Vinci"
          none none "" "Unknown").image_hash = some hh →
        ¬ old.image_hash = some hh) ∧
      ¬ (old.title = (createdArtworkRow sampleDB "Mona Lisa" "Leonardo da Vinci"
          none none "" "Unknown").title ∧
         old.artist = (createdArtworkRow sampleDB "Mona Lisa" "Leonardo da Vinci"
          none none "" "Unknown").artist)) := by
  constructor
  · exact artwork_store_uniqueness.1 sampleDB sampleUser (some "h1") "f.jpg"
      monaLisaAI _ _ rfl rfl
  · exact artwork_store_uniqueness.2 sampleDB sampleUser (some "Mona Lisa")
      (some "Leonardo da Vinci") none none "" "Unknown" _ rfl

/-- C2: a request whose content hash matches a stored artwork is answered
from the store — `success: true`, `cached: true`, the stored row's id,
the store unchanged and the model not invoked; and uploading the same
file twice (the second upload's hash hitting the row the first upload
stored) returns the same artwork id both times. -/
theorem recognize_content_hash_cache_hit :
    (∀ db user h fn ai a, findByHash db h = some a →
      recognize db user (some h) fn ai = .ok (cacheHitOutcome db user a) ∧
      (cacheHitOutcome db user a).response.success = true ∧
      (cacheHitOutcome db user a).response.cached = true ∧
      (cacheHitOutcome db user a).response.artwork_id = some a.id ∧
      (cacheHitOutcome db user a).aiInvoked = false ∧
      (cacheHitOutcome db user a).db = db) ∧
    (∀ db user u2 h fn fn2 ai ai2 t s,
      findByHash db h = none → ai.success = true → ai.title = some t →
      ai.artist = some s → findByTitle db t = none →
      ∃ o1 o2, recognize db user (some h) fn ai = .ok o1 ∧
        recognize o1.db u2 (some h) fn2 ai2 = .ok o2 ∧
        o1.response.cached = false ∧ o2.response.cached = true ∧
        o2.response.success = true ∧
        o2.response.artwork_id = o1.response.artwork_id) := by
  constructor
  · intro db user h fn ai a hf
    exact ⟨by simp only [recognize, hf], rfl, rfl, rfl, rfl, rfl⟩
  · intro db user u2 h fn fn2 ai ai2 t s hf hs ht hA hT
    obtain ⟨o1, ho1, ho1db, ho1c, ho1s, ho1id, -⟩ :=
      finishSuccess_spec
        { artworks := db.artworks ++ [newArtworkRow db (some h) fn ai t s],
          nextId := db.nextId + 1 }
        user (newArtworkRow db (some h) fn ai t s)
    have e1 : recognize db user (some h) fn ai = .ok o1 := by
      simp only [recognize, hf]
      rw [recognizeWithAI_creates db user (some h) fn ai t s hs ht hA hT]
      exact ho1
    have hfind2 : findByHash o1.db h = some (newArtworkRow db (some h) fn ai t s) := by
      rw [ho1db]
      simp only [findByHash] at hf ⊢
      rw [find?_append_of_none _ hf]
      simp [newArtworkRow, List.find?_cons]
    refine ⟨o1, cacheHitOutcome o1.db u2 (newArtworkRow db (some h) fn ai t s),
      e1, by simp only [recognize, hfind2], ho1c, rfl, rfl, ?_⟩
    rw [ho1id]
    rfl

/-- Witness for C2: a hash hit on the sample store returns the stored
row, and two consecutive uploads of the same new file against an empty
store agree on the artwork id, the second as a cache hit. -/
theorem recognize_content_hash_cache_hit_witness :
    (recognize sampleDB sampleUser (some "abc123") "f.jpg" monaLisaAI =
        .ok (cacheHitOutcome sampleDB sampleUser starryNight) ∧
      (cacheHitOutcome sampleDB sampleUser starryNight).response.success = true ∧
      (cacheHitOutcome sampleDB sampleUser starryNight).response.cached = true ∧
      (cacheHitOutcome sampleDB sampleUser starryNight).response.artwork_id =
        some starryNight.id ∧
      (cacheHitOutcome sampleDB sampleUser starryNight).aiInvoked = false ∧
      (cacheHitOutcome sampleDB sampleUser starryNight).db = sampleDB) ∧
    (∃ o1 o2, recognize emptyDB sampleUser (some "h1") "f.jpg" monaLisaAI = .ok o1 ∧
      recognize o1.db sampleUser (some "h1") "g.jpg" monaLisaAI = .ok o2 ∧
      o1.response.cached = false ∧ o2.response.cached = true ∧
      o2.response.success = true ∧
      o2.response.artwork_id = o1.response.artwork_id) :=
  ⟨recognize_content_hash_cache_hit.1 sampleDB sampleUser "abc123" "f.jpg"
      monaLisaAI starryNight rfl,
    recognize_content_hash_cache_hit.2 emptyDB sampleUser sampleUser "h1"
      "f.jpg" "g.jpg" monaLisaAI monaLisaAI "Mona Lisa" "Leonardo da Vinci"
      rfl rfl rfl rfl rfl⟩

end ArtLens
